import Mathlib

/-!
Verification of the `dj` dataset-registry and ingestion tool.

This file gives a shallow embedding of the registry core of the repository:
the SQLAlchemy models (`src/dj/registry/models.py`, with the unique
constraints and the `before_insert`/`before_update` event hook computing the
storage URI), the `Journalist` registry accessor
(`src/dj/actions/registry/journalist.py`: transaction scope, dataset
get-or-create, tag normalization and idempotent tagging, file-record
staging), the ingestion loop (`src/dj/commands/load.py`) and the retrieval
query (`src/dj/commands/fetch.py` with the validators of
`src/dj/schemes.py`).

The session is modelled as a committed database plus pending (session-added,
not yet committed) rows; `commit` flushes pendings (running the URI hook on
every pending file row), checks the declared uniqueness constraints and
either installs the new state or fails with an integrity error recording
which constraints were violated; `rollback` discards pendings.  Auto-increment
ids are drawn from per-table counters held in the session (sequences do not
roll back, matching the backing stores).  Python string methods used by the
code (`str.lower`, `str.strip`, substring `LIKE` matching,
`os.path.splitext`) are embedded as executable functions over `List Char`.
-/

namespace DJ

/-- ASCII lowercasing of one character, as Python `str.lower` acts on the
ASCII range used by the repository. -/
def asciiLower (c : Char) : Char :=
  if 'A' ≤ c && c ≤ 'Z' then Char.ofNat (c.toNat + 32) else c

/-- Python `str.lower` (ASCII range). -/
def pyLower (s : String) : String := ⟨s.data.map asciiLower⟩

/-- Python whitespace characters stripped by `str.strip()`. -/
def isPySpace (c : Char) : Bool :=
  c == ' ' || c == '\t' || c == '\n' || c == '\r' || c == '\x0b' || c == '\x0c'

/-- Python `str.strip()`: drop leading and trailing whitespace. -/
def pyStrip (s : String) : String :=
  ⟨((s.data.dropWhile isPySpace).reverse.dropWhile isPySpace).reverse⟩

/-- Whether `needle` is a prefix of the second list (character-wise). -/
def listStartsWith : List Char → List Char → Bool
  | [], _ => true
  | _ :: _, [] => false
  | n :: ns, h :: hs => n == h && listStartsWith ns hs

/-- Whether `needle` occurs as a contiguous substring; embeds the SQL
`LIKE concat of percent, m, percent` filter used on `mime_type`. -/
def hasSub (needle : List Char) : List Char → Bool
  | [] => listStartsWith needle []
  | c :: cs => listStartsWith needle (c :: cs) || hasSub needle cs

/-- Helper for `extOf`: `pre` is the part of the name already scanned.  The
extension starts at the last dot, provided some earlier character of the
name is not a dot (Python `os.path.splitext` ignores leading dots). -/
def extOfAux : List Char → List Char → List Char
  | _, [] => []
  | pre, c :: cs =>
    if c == '.' && !(cs.contains '.') && pre.any (fun d => d != '.') then c :: cs
    else extOfAux (pre ++ [c]) cs

/-- Python `os.path.splitext(filename)[1]` for a base name (no slashes):
the suffix from the last dot, empty when the only dots lead the name. -/
def extOf (filename : String) : String := ⟨extOfAux [] filename.data⟩

/-- Duplicate check used to model the SQL uniqueness constraints: `true`
when no two list entries share a key. -/
def nodupBy {α β : Type} [DecidableEq β] (key : α → β) : List α → Bool
  | [] => true
  | x :: xs => (xs.all fun y => !(decide (key y = key x))) && nodupBy key xs

/-- Lifecycle stage enumeration (`src/dj/constants.py`, `DataStage`). -/
inductive DataStage : Type
  | raw
  | staged
  | processed
  | published
deriving DecidableEq, Repr

/-- The Python enum member value (`DataStage.RAW.value` and so on). -/
def DataStage.value : DataStage → String
  | .raw => "raw"
  | .staged => "staged"
  | .processed => "processed"
  | .published => "published"

/-- Modelled from the spec: `resolve_data_s3uri` is imported from `dj.utils`
by both model modules but is not defined anywhere under the sources; spec
section 4.2 prescribes a pure function composing path segments from all
inputs in a fixed order and appending the original extension.  The argument
names and order follow the keyword arguments of the call site in
`src/dj/registry/models.py`. -/
def resolve_data_s3uri (s3bucket s3prefix domain dataset_name stage mime_type sha256 ext : String) : String :=
  "s3://" ++ s3bucket ++ "/" ++ s3prefix ++ "/" ++ domain ++ "/" ++ dataset_name ++ "/" ++ stage ++ "/" ++ mime_type ++ "/" ++ sha256 ++ ext

/-- A row of the `datasets` table (`DatasetRecord`). -/
structure DatasetRow : Type where
  id : Nat
  name : String
  description : Option String
  domain : String
deriving DecidableEq, Repr

/-- A row of the `tags` table (`TagRecord`). -/
structure TagRow : Type where
  id : Nat
  name : String
deriving DecidableEq, Repr

/-- A row of the `files` table (`FileRecord`). -/
structure FileRow : Type where
  id : Nat
  dataset_id : Nat
  s3bucket : String
  s3prefix : String
  stage : DataStage
  filename : String
  sha256 : String
  mime_type : String
  size_bytes : Nat
  s3uri : String
deriving DecidableEq, Repr

/-- A pending (session-added, not yet flushed) `FileRecord`, together with
its `dataset` relationship (set by `add_file_record` via
`datafile.dataset = dataset`) and its `tags` relationship. -/
structure PendFile : Type where
  row : FileRow
  ds : DatasetRow
  tagIds : List Nat
deriving DecidableEq, Repr

/-- The committed relational state: the four tables declared in
`src/dj/registry/models.py` (`file_tags` is the association table). -/
structure Reg : Type where
  datasets : List DatasetRow
  tags : List TagRow
  files : List FileRow
  fileTags : List (Nat × Nat)
deriving DecidableEq, Repr

/-- A `Journalist` session: committed database, pending rows added to the
session but not yet committed, and the auto-increment counters. -/
structure Sess : Type where
  db : Reg
  pendDatasets : List DatasetRow
  pendTags : List TagRow
  pendFiles : List PendFile
  pendFileTags : List (Nat × Nat)
  nextDatasetId : Nat
  nextTagId : Nat
  nextFileId : Nat
deriving DecidableEq, Repr

/-- Rows visible to queries of this session: committed plus pending
(SQLAlchemy autoflushes pending rows before a query). -/
def Sess.liveDatasets (s : Sess) : List DatasetRow := s.db.datasets ++ s.pendDatasets

/-- Tags visible to queries of this session. -/
def Sess.liveTags (s : Sess) : List TagRow := s.db.tags ++ s.pendTags

/-- File rows visible to queries of this session. -/
def Sess.liveFiles (s : Sess) : List FileRow := s.db.files ++ s.pendFiles.map PendFile.row

/-- Association rows visible to queries of this session, including the
`tags` relationships of pending files. -/
def Sess.liveFileTags (s : Sess) : List (Nat × Nat) :=
  s.db.fileTags ++ s.pendFileTags ++
    s.pendFiles.flatMap (fun pf => pf.tagIds.map (fun t => (pf.row.id, t)))

/-- Errors: the Python exceptions raised by the embedded code paths, plus
`batchFailed` which names the error class the spec postulates for a fully
failed batch (no such class exists in the code), and `simulated`, an
injected failure used to state the transaction-atomicity scenarios.  An
`integrity` error records which uniqueness constraints were violated:
datasets `(name, domain)`, tag `name`, the `unique_data_file` tuple, the
`s3uri` column, and the association-table primary key. -/
inductive Err : Type
  | integrity (dsViol tagViol tupleViol uriViol assocViol : Bool)
  | valueError (msg : String)
  | fileExists
  | datasetExist
  | fileNotFound
  | batchFailed
  | simulated
  | inspectFailed (msg : String)
deriving DecidableEq, Repr

/-- The event hook `_validate_and_compute_s3uri` of
`src/dj/registry/models.py`, run before every insert or update of a
`FileRecord`: it validates the required URI components and then overwrites
`s3uri` with the value recomputed by `resolve_data_s3uri` from the row's
other attributes and its dataset's domain and name.  Empty strings model
falsy values; the `dataset` relationship itself is always populated in this
embedding. -/
def validate_and_compute_s3uri (pf : PendFile) : Except Err FileRow :=
  if pf.row.s3bucket = "" then .error (.valueError "Missing required field for S3 URI: s3bucket")
  else if pf.ds.domain = "" then .error (.valueError "Missing required field for S3 URI: dataset.domain")
  else if pf.ds.name = "" then .error (.valueError "Missing required field for S3 URI: dataset.name")
  else .ok { pf.row with
    s3uri := resolve_data_s3uri pf.row.s3bucket (FileRow.s3prefix pf.row) pf.ds.domain
      pf.ds.name pf.row.stage.value pf.row.mime_type pf.row.sha256 (extOf pf.row.filename) }

/-- Run the before-insert hook on every pending file, left to right. -/
def mapHook : List PendFile → Except Err (List FileRow)
  | [] => .ok []
  | pf :: pfs =>
    match validate_and_compute_s3uri pf with
    | .error e => .error e
    | .ok r =>
      match mapHook pfs with
      | .error e => .error e
      | .ok rs => .ok (r :: rs)

/-- The key of the `unique_data_file` constraint. -/
def fileKey (f : FileRow) : Nat × String × String × DataStage × String :=
  (f.dataset_id, f.s3bucket, FileRow.s3prefix f, f.stage, f.sha256)

/-- The database state a commit of this session would try to install. -/
def Sess.flushed (s : Sess) (hooked : List FileRow) : Reg :=
  { datasets := s.db.datasets ++ s.pendDatasets
    tags := s.db.tags ++ s.pendTags
    files := s.db.files ++ hooked
    fileTags := s.db.fileTags ++ s.pendFileTags ++
      s.pendFiles.flatMap (fun pf => pf.tagIds.map (fun t => (pf.row.id, t))) }

/-- `session.commit()`: flush pendings (running the URI hook on pending
files), check the declared uniqueness constraints, and either install the
new state with empty pendings or fail leaving the session unchanged. -/
def commitS (s : Sess) : Except Err Unit × Sess :=
  match mapHook s.pendFiles with
  | .error e => (.error e, s)
  | .ok hooked =>
    let r := s.flushed hooked
    let dsViol := !nodupBy (fun d => (DatasetRow.name d, DatasetRow.domain d)) r.datasets
    let tagViol := !nodupBy TagRow.name r.tags
    let tupleViol := !nodupBy fileKey r.files
    let uriViol := !nodupBy FileRow.s3uri r.files
    let assocViol := !nodupBy id r.fileTags
    if dsViol || tagViol || tupleViol || uriViol || assocViol then
      (.error (.integrity dsViol tagViol tupleViol uriViol assocViol), s)
    else
      (.ok (), { s with db := r, pendDatasets := [], pendTags := [], pendFiles := [], pendFileTags := [] })

/-- `session.rollback()`: discard all pending rows. -/
def rollbackS (s : Sess) : Sess :=
  { s with pendDatasets := [], pendTags := [], pendFiles := [], pendFileTags := [] }

/-- `Journalist.transaction` (`journalist.py` lines 96-106): run the body,
commit on normal completion, and on any exception roll back and re-raise. -/
def transaction {α : Type} (body : Sess → Except Err α × Sess) (s : Sess) : Except Err α × Sess :=
  match body s with
  | (.ok a, s1) =>
    match commitS s1 with
    | (.ok _, s2) => (.ok a, s2)
    | (.error e, s2) => (.error e, rollbackS s2)
  | (.error e, s1) => (.error e, rollbackS s1)

/-- `Journalist.get_dataset`: first dataset matching name and domain. -/
def get_dataset (domain name : String) (s : Sess) : Option DatasetRow :=
  s.liveDatasets.find? (fun d => d.name == name && d.domain == domain)

/-- `Journalist.create_dataset`: build the record, `session.add` it, and
`session.commit()` immediately (the commit is inside `create_dataset`
itself, lines 120-133 of `journalist.py`). -/
def create_dataset (domain name : String) (description : Option String) (s : Sess) :
    Except Err DatasetRow × Sess :=
  let row : DatasetRow := { id := s.nextDatasetId, name := name, description := description, domain := domain }
  let s1 := { s with pendDatasets := s.pendDatasets ++ [row], nextDatasetId := s.nextDatasetId + 1 }
  match commitS s1 with
  | (.ok _, s2) => (.ok row, s2)
  | (.error e, s2) => (.error e, s2)

/-- `Journalist.add_dataset` (the spec's `ensure_dataset`): get-or-create;
an existing dataset with `exists_ok = false` raises `DatasetExist`. -/
def add_dataset (domain name : String) (description : Option String) (exists_ok : Bool) (s : Sess) :
    Except Err DatasetRow × Sess :=
  match get_dataset domain name s with
  | none => create_dataset domain name description s
  | some d => if !exists_ok then (.error .datasetExist, s) else (.ok d, s)

/-- `Journalist._normalize_tag_name`: `tag_name.lower().strip()`. -/
def normalize_tag_name (tag_name : String) : String := pyStrip (pyLower tag_name)

/-- `Journalist.get_tag`: first tag whose stored name equals the normalized
input name. -/
def get_tag (tag_name : String) (s : Sess) : Option TagRow :=
  s.liveTags.find? (fun t => t.name == normalize_tag_name tag_name)

/-- `Journalist.create_tag`: add a tag row under the normalized name and
commit unless `commit = false`. -/
def create_tag (tag_name : String) (commit : Bool) (s : Sess) : Except Err TagRow × Sess :=
  let row : TagRow := { id := s.nextTagId, name := normalize_tag_name tag_name }
  let s1 := { s with pendTags := s.pendTags ++ [row], nextTagId := s.nextTagId + 1 }
  if commit then
    match commitS s1 with
    | (.ok _, s2) => (.ok row, s2)
    | (.error e, s2) => (.error e, s2)
  else (.ok row, s1)

/-- `Journalist.add_tag`: get-or-create by normalized name. -/
def add_tag (tag_name : String) (commit : Bool) (s : Sess) : Except Err TagRow × Sess :=
  match get_tag tag_name s with
  | none => create_tag tag_name commit s
  | some t => (.ok t, s)

/-- `Journalist.get_file_record` in its `file_id` mode (the only mode the
embedded call sites use); `file_id = 0` models the falsy id that falls
through every mode and raises `ValueError`. -/
def get_file_record (file_id : Nat) (s : Sess) : Except Err (Option FileRow) :=
  if file_id = 0 then
    .error (.valueError "get_file_record requires either file_id, sha256, or (filename + dataset_name + domain)")
  else .ok (s.liveFiles.find? (fun f => f.id == file_id))

/-- Association rows of one file visible to this session, resolved to tag
rows (the `file_record.tags` relationship list). -/
def tagsOfFile (s : Sess) (file_id : Nat) : List TagRow :=
  (s.liveFileTags.filter (fun p => p.1 == file_id)).filterMap
    (fun p => s.liveTags.find? (fun t => t.id == p.2))

/-- The per-name loop of `Journalist.add_tags2file`: get-or-create the tag
(without committing) and append the association unless the tag is already
in `file_record.tags`. -/
def add_tags2file_go (file_id : Nat) (f : FileRow) : List String → Sess → Except Err FileRow × Sess
  | [], s => (.ok f, s)
  | n :: ns, s =>
    match add_tag n false s with
    | (.error e, s1) => (.error e, s1)
    | (.ok t, s1) =>
      if s1.liveFileTags.contains (file_id, t.id) then add_tags2file_go file_id f ns s1
      else add_tags2file_go file_id f ns
        { s1 with pendFileTags := s1.pendFileTags ++ [(file_id, t.id)] }

/-- `Journalist.add_tags2file`: look the file up, then process the tag
names; returns the file record. -/
def add_tags2file (file_id : Nat) (tag_names : List String) (s : Sess) : Except Err FileRow × Sess :=
  match get_file_record file_id s with
  | .error e => (.error e, s)
  | .ok none => (.error .fileNotFound, s)
  | .ok (some f) => add_tags2file_go file_id f tag_names s

/-- The tag loop of `Journalist.add_file_record`: each name is stripped and
passed to `add_tag(..., commit=False)`. -/
def tagsLoop : List String → Sess → Except Err (List TagRow) × Sess
  | [], s => (.ok [], s)
  | n :: ns, s =>
    match add_tag (pyStrip n) false s with
    | (.error e, s1) => (.error e, s1)
    | (.ok t, s1) =>
      match tagsLoop ns s1 with
      | (.ok ts, s2) => (.ok (t :: ts), s2)
      | (.error e, s2) => (.error e, s2)

/-- `Journalist.add_file_record`: resolve the tag records, build the
`FileRecord` (its `s3uri` is a placeholder until the before-insert hook
runs), attach the dataset and tags relationships, and `session.add` it;
no commit happens here. -/
def add_file_record (dataset : DatasetRow) (s3bucket s3prefix filename sha256 mime_type : String)
    (size_bytes : Nat) (stage : DataStage) (tags : Option (List String)) (s : Sess) :
    Except Err FileRow × Sess :=
  let ts := tags.getD []
  match (if ts.isEmpty then (.ok [], s) else tagsLoop ts s) with
  | (.error e, s1) => (.error e, s1)
  | (.ok trs, s1) =>
    let row : FileRow :=
      { id := s1.nextFileId, dataset_id := dataset.id, s3bucket := s3bucket,
        s3prefix := s3prefix, stage := stage, filename := filename, sha256 := sha256,
        mime_type := mime_type, size_bytes := size_bytes, s3uri := "" }
    let pf : PendFile := { row := row, ds := dataset, tagIds := trs.map TagRow.id }
    (.ok row, { s1 with pendFiles := s1.pendFiles ++ [pf], nextFileId := s1.nextFileId + 1 })

/-- The loader configuration fields consumed by `DataLoader`
(`src/dj/schemes.py`, `LoadDataConfig`, plus the bucket and key prefix of
`DJConfig`). -/
structure LoadCfg : Type where
  data_src : String
  dataset_name : String
  description : Option String
  domain : String
  stage : DataStage
  tags : Option (List String)
  exists_ok : Bool
  s3bucket : String
  s3prefix : String
deriving DecidableEq, Repr

/-- Content metadata of one local file (`FileMetadata` of
`src/dj/schemes.py`; `filename` is the computed base name). -/
structure FileMetadata : Type where
  filename : String
  sha256 : String
  mime_type : String
  size_bytes : Nat
deriving DecidableEq, Repr

/-- One gathered candidate source together with the outcome of fetching it
to a local path and inspecting it.  The `FileInspector` (module
`dj.inspect`) and the blob store are not under the sources; per spec
sections 4.1 and 4.3 they either produce content metadata or raise, so the
per-item outcome is given as data. -/
instance exceptDecEq {α β : Type} [DecidableEq α] [DecidableEq β] : DecidableEq (Except α β) := fun
  | .error a, .error b => decidable_of_iff (a = b) (by simp)
  | .error _, .ok _ => .isFalse (by simp)
  | .ok _, .error _ => .isFalse (by simp)
  | .ok a, .ok b => decidable_of_iff (a = b) (by simp)

structure SourceItem : Type where
  src : String
  fetchInspect : Except String FileMetadata
deriving DecidableEq, Repr

/-- `DataLoader._load_datafile`: inspect, then register inside one
transaction; an `IntegrityError` whose message names `files.s3uri` is
translated to `FileExistsError`, any other error propagates.  The SQLite
message of a violated constraint names the violated columns, so it contains
the substring `files.s3uri` exactly when the `s3uri` uniqueness constraint
is among the violated ones. -/
def load_datafile (cfg : LoadCfg) (dataset : DatasetRow) (item : SourceItem) (s : Sess) :
    Except Err FileRow × Sess :=
  match item.fetchInspect with
  | .error m => (.error (.inspectFailed m), s)
  | .ok md =>
    match transaction (add_file_record dataset cfg.s3bucket (LoadCfg.s3prefix cfg) md.filename
        md.sha256 md.mime_type md.size_bytes cfg.stage cfg.tags) s with
    | (.ok r, s1) => (.ok r, s1)
    | (.error (.integrity dv tv fv uv av), s1) =>
      if uv then (.error .fileExists, s1) else (.error (.integrity dv tv fv uv av), s1)
    | (.error e, s1) => (.error e, s1)

/-- The per-item loop of `DataLoader.load`: a failed item is logged and
skipped, a successful one is recorded with its source. -/
def loadLoop (cfg : LoadCfg) (dataset : DatasetRow) : List SourceItem → Sess →
    List (String × FileRow) × Sess
  | [], s => ([], s)
  | it :: its, s =>
    match load_datafile cfg dataset it s with
    | (.ok r, s1) =>
      let (ps, s2) := loadLoop cfg dataset its s1
      ((it.src, r) :: ps, s2)
    | (.error _, s1) => loadLoop cfg dataset its s1

/-- `DataLoader.load`: fail on an empty gather, resolve the dataset once
per batch, process the items independently, and fail when nothing was
processed; on success the function returns `None` (here `Unit`). -/
def load (cfg : LoadCfg) (items : List SourceItem) (s : Sess) : Except Err Unit × Sess :=
  if items.isEmpty then
    (.error (.valueError ("Failed to gather data files from " ++ cfg.data_src)), s)
  else
    match add_dataset cfg.domain cfg.dataset_name cfg.description cfg.exists_ok s with
    | (.error e, s1) => (.error e, s1)
    | (.ok ds, s1) =>
      let (ps, s2) := loadLoop cfg ds items s1
      if ps.isEmpty then
        (.error (.valueError ("Failed to load datafiles (" ++ cfg.data_src ++ ").")), s2)
      else (.ok (), s2)

/-- The retrieval filters (`FetchDataConfig` of `src/dj/schemes.py`). -/
structure FetchCfg : Type where
  domain : String
  stage : DataStage
  dataset_name : Option String
  mime : Option String
  tags : Option (List String)
  filenames : Option (List String)
  sha256 : Option (List String)
  limit : Nat
deriving DecidableEq, Repr

/-- The `serialize_tags` validator of `FetchDataConfig`: the branch runs
only when the list is falsy (empty), so a non-empty tag list is returned
exactly as supplied, never lowercased. -/
def serialize_tags (tags : List String) : List String :=
  if tags.isEmpty then tags.map pyLower else tags

/-- Truthiness of an optional string (Python `if value:`). -/
def optTruthy (v : Option String) : Option String :=
  match v with
  | none => none
  | some x => if x = "" then none else some x

/-- Truthiness of an optional list (Python `if value:`). -/
def optListTruthy (v : Option (List String)) : Option (List String) :=
  match v with
  | none => none
  | some [] => none
  | some l => some l

/-- The first three query steps of `DataFetcher.fetch`
(`src/dj/commands/fetch.py` lines 59-68): join `FileRecord` with
`DatasetRecord` on `dataset_id`, then apply the mandatory domain and stage
filters. -/
def joinBase (cfg : FetchCfg) (s : Sess) : List (FileRow × DatasetRow) :=
  ((s.liveFiles.filterMap
      (fun f => (s.liveDatasets.find? (fun d => d.id == f.dataset_id)).map (fun d => (f, d)))).filter
    (fun fd => fd.2.domain == cfg.domain)).filter
    (fun fd => fd.1.stage == cfg.stage)

/-- The optional exact dataset-name filter of `DataFetcher.fetch`. -/
def applyNameFilter (cfg : FetchCfg) (q : List (FileRow × DatasetRow)) : List (FileRow × DatasetRow) :=
  match optTruthy cfg.dataset_name with
  | none => q
  | some n => q.filter (fun fd => fd.2.name == n)

/-- The optional `mime_type` substring (`LIKE`) filter of
`DataFetcher.fetch`. -/
def applyMimeFilter (cfg : FetchCfg) (q : List (FileRow × DatasetRow)) : List (FileRow × DatasetRow) :=
  match optTruthy cfg.mime with
  | none => q
  | some m => q.filter (fun fd => hasSub m.data fd.1.mime_type.data)

/-- The optional tags filter of `DataFetcher.fetch`: an SQL join with the
tags relationship filtered by `TagRecord.name.in_(tags)`, producing one
joined row per matching tag of a file. -/
def applyTagsFilter (cfg : FetchCfg) (s : Sess) (q : List (FileRow × DatasetRow)) :
    List (FileRow × DatasetRow) :=
  match optListTruthy cfg.tags with
  | none => q
  | some ts => q.flatMap
    (fun fd : FileRow × DatasetRow =>
      ((tagsOfFile s fd.1.id).filter (fun t : TagRow => ts.contains t.name)).map (fun _ => fd))

/-- The fully filtered join of `DataFetcher.fetch`, before the limit. -/
def fetchJoin (cfg : FetchCfg) (s : Sess) : List (FileRow × DatasetRow) :=
  applyTagsFilter cfg s (applyMimeFilter cfg (applyNameFilter cfg (joinBase cfg s)))

/-- `DataFetcher.fetch` (`src/dj/commands/fetch.py` lines 59-87): the
filtered join capped at `limit`.  The `filenames` and `sha256` config
fields are never consulted by the query builder. -/
def fetchRecords (cfg : FetchCfg) (s : Sess) : List FileRow :=
  ((fetchJoin cfg s).map Prod.fst).take cfg.limit

/-- Well-formedness of a quiescent session: no pending rows, the committed
state satisfies every uniqueness constraint, primary keys are unique, the
auto-increment counters are fresh, associations reference existing rows,
and every stored tag name is fixed under the normalization that
`create_tag` applies to every tag it stores. -/
def wf (s : Sess) : Bool :=
  s.pendDatasets.isEmpty && s.pendTags.isEmpty && s.pendFiles.isEmpty && s.pendFileTags.isEmpty &&
  nodupBy (fun d => (DatasetRow.name d, DatasetRow.domain d)) s.db.datasets &&
  nodupBy TagRow.name s.db.tags &&
  nodupBy fileKey s.db.files &&
  nodupBy FileRow.s3uri s.db.files &&
  nodupBy id s.db.fileTags &&
  nodupBy DatasetRow.id s.db.datasets &&
  nodupBy TagRow.id s.db.tags &&
  nodupBy FileRow.id s.db.files &&
  s.db.datasets.all (fun d => d.id < s.nextDatasetId) &&
  s.db.tags.all (fun t => t.id < s.nextTagId) &&
  s.db.files.all (fun f => f.id < s.nextFileId) &&
  s.db.fileTags.all (fun p => (s.db.files.any (fun f => f.id == p.1)) &&
    (s.db.tags.any (fun t => t.id == p.2))) &&
  s.db.tags.all (fun t => t.name == normalize_tag_name t.name)

/-- The state of a fresh registry: empty tables, counters at one (SQLite
and PostgreSQL auto-increment ids start at one). -/
def emptySess : Sess :=
  { db := { datasets := [], tags := [], files := [], fileTags := [] },
    pendDatasets := [], pendTags := [], pendFiles := [], pendFileTags := [],
    nextDatasetId := 1, nextTagId := 1, nextFileId := 1 }

def probeCfg : LoadCfg :=
  { data_src := "/data", dataset_name := "ds", description := none, domain := "dom",
    stage := .raw, tags := none, exists_ok := true, s3bucket := "b", s3prefix := "p" }

def probeItems : List SourceItem :=
  [ { src := "/data/f1.txt", fetchInspect := .ok { filename := "f1.txt", sha256 := "h1", mime_type := "text/plain", size_bytes := 1 } },
    { src := "/data/f2.txt", fetchInspect := .error "unreadable" },
    { src := "/data/f3.txt", fetchInspect := .ok { filename := "f3.txt", sha256 := "h3", mime_type := "text/plain", size_bytes := 3 } },
    { src := "/data/f4.txt", fetchInspect := .error "not found" },
    { src := "/data/f5.txt", fetchInspect := .ok { filename := "f5.txt", sha256 := "h5", mime_type := "text/plain", size_bytes := 5 } } ]

def probeFetchSess : Sess :=
  { db :=
    { datasets := [{ id := 1, name := "ds", description := none, domain := "dom" }],
      tags := [{ id := 1, name := "a" }, { id := 2, name := "b" }],
      files :=
        [ { id := 1, dataset_id := 1, s3bucket := "b", s3prefix := "p", stage := .raw,
            filename := "f1.txt", sha256 := "h1", mime_type := "text/plain", size_bytes := 1,
            s3uri := "s3://b/p/dom/ds/raw/text/plain/h1.txt" },
          { id := 2, dataset_id := 1, s3bucket := "b", s3prefix := "p", stage := .raw,
            filename := "f2.txt", sha256 := "h2", mime_type := "text/plain", size_bytes := 2,
            s3uri := "s3://b/p/dom/ds/raw/text/plain/h2.txt" },
          { id := 3, dataset_id := 1, s3bucket := "b", s3prefix := "p", stage := .raw,
            filename := "f3.txt", sha256 := "h3", mime_type := "text/plain", size_bytes := 3,
            s3uri := "s3://b/p/dom/ds/raw/text/plain/h3.txt" } ],
      fileTags := [(1, 1), (2, 2), (3, 1), (3, 2)] },
    pendDatasets := [], pendTags := [], pendFiles := [], pendFileTags := [],
    nextDatasetId := 2, nextTagId := 3, nextFileId := 4 }

def probeFetchCfg : FetchCfg :=
  { domain := "dom", stage := .raw, dataset_name := none, mime := none,
    tags := some ["a"], filenames := none, sha256 := none, limit := 10 }

def probeDs : DatasetRow := { id := 1, name := "ds", description := none, domain := "dom" }

def probeSessWithDs : Sess :=
  { emptySess with db := { emptySess.db with datasets := [probeDs] }, nextDatasetId := 2 }

def mdA : FileMetadata := { filename := "a.txt", sha256 := "h", mime_type := "text/plain", size_bytes := 1 }

def mdSameExt : FileMetadata := { filename := "a2.txt", sha256 := "h", mime_type := "text/plain", size_bytes := 1 }

def mdDiffExt : FileMetadata := { filename := "a.bin", sha256 := "h", mime_type := "text/plain", size_bytes := 1 }

def probeS1 : Sess :=
  (load_datafile probeCfg probeDs { src := "x", fetchInspect := .ok mdA } probeSessWithDs).2

/-! ### Generic lemmas about the constraint checker and helpers -/

theorem nodupBy_append_one {α β : Type} [DecidableEq β] (key : α → β) (l : List α) (x : α)
    (h1 : nodupBy key l = true) (h2 : ∀ y ∈ l, key y ≠ key x) :
    nodupBy key (l ++ [x]) = true := by
  induction l with
  | nil => simp [nodupBy]
  | cons a as ih =>
    simp only [nodupBy, Bool.and_eq_true, List.all_eq_true] at h1 ⊢
    refine ⟨?_, ih h1.2 (fun y hy => h2 y (by simp [hy]))⟩
    intro y hy
    rcases List.mem_append.mp hy with hy | hy
    · simpa using h1.1 y hy
    · simp only [List.mem_singleton] at hy
      subst hy
      simpa using fun hc : key y = key a => h2 a (by simp) hc.symm

theorem nodupBy_append_one_false {α β : Type} [DecidableEq β] (key : α → β) (l : List α) (x y : α)
    (hy : y ∈ l) (hk : key y = key x) : nodupBy key (l ++ [x]) = false := by
  induction l with
  | nil => cases hy
  | cons a as ih =>
    simp only [List.cons_append, nodupBy, Bool.and_eq_false_iff]
    rcases List.mem_cons.mp hy with rfl | hy
    · left
      simp only [List.all_eq_false]
      exact ⟨x, by simp, by simp [hk]⟩
    · right
      exact ih hy

theorem nodupBy_count_one {α β : Type} [DecidableEq β] (key : α → β) (l : List α) (x : α)
    (h : nodupBy key l = true) (hx : x ∈ l) :
    (l.filter (fun y => key y = key x)).length = 1 := by
  induction l with
  | nil => cases hx
  | cons a as ih =>
    simp only [nodupBy, Bool.and_eq_true, List.all_eq_true] at h
    rcases List.mem_cons.mp hx with rfl | hx
    · have : as.filter (fun y => key y = key x) = [] := by
        refine List.filter_eq_nil_iff.mpr (fun y hy => ?_)
        simpa using h.1 y hy
      simp [List.filter_cons, this]
    · have hne : ¬ (key a = key x) := by
        intro hc
        have := h.1 x hx
        simp at this
        exact this (by rw [hc])
      simp only [List.filter_cons]
      simp only [decide_eq_true_eq, hne, if_false]
      exact ih h.2 hx

theorem find?_key_of_nodup {α β : Type} [DecidableEq β] [BEq β] [LawfulBEq β] (key : α → β)
    (l : List α) (y : α) (h : nodupBy key l = true) (hy : y ∈ l) :
    l.find? (fun z => key z == key y) = some y := by
  induction l with
  | nil => cases hy
  | cons a as ih =>
    simp only [nodupBy, Bool.and_eq_true, List.all_eq_true] at h
    rcases List.mem_cons.mp hy with rfl | hy
    · simp [List.find?_cons]
    · have hne : ¬ ((key a == key y) = true) := by
        intro hc
        have h2 := h.1 y hy
        simp only [Bool.not_eq_true', decide_eq_false_iff_not] at h2
        exact h2 (beq_iff_eq.mp hc).symm
      rw [List.find?_cons]
      simp only [hne, if_false]
      exact ih h.2 hy

theorem wf_spec (s : Sess) (h : wf s = true) :
    s.pendDatasets = [] ∧ s.pendTags = [] ∧ s.pendFiles = [] ∧ s.pendFileTags = [] ∧
    nodupBy (fun d => (DatasetRow.name d, DatasetRow.domain d)) s.db.datasets = true ∧
    nodupBy TagRow.name s.db.tags = true ∧
    nodupBy fileKey s.db.files = true ∧
    nodupBy FileRow.s3uri s.db.files = true ∧
    nodupBy id s.db.fileTags = true ∧
    nodupBy DatasetRow.id s.db.datasets = true ∧
    nodupBy TagRow.id s.db.tags = true ∧
    nodupBy FileRow.id s.db.files = true ∧
    (∀ d ∈ s.db.datasets, d.id < s.nextDatasetId) ∧
    (∀ t ∈ s.db.tags, t.id < s.nextTagId) ∧
    (∀ f ∈ s.db.files, f.id < s.nextFileId) ∧
    (∀ p ∈ s.db.fileTags, (∃ f ∈ s.db.files, f.id = p.1) ∧ (∃ t ∈ s.db.tags, t.id = p.2)) ∧
    (∀ t ∈ s.db.tags, t.name = normalize_tag_name t.name) := by
  simp only [wf, Bool.and_eq_true, List.isEmpty_iff, List.all_eq_true, List.any_eq_true,
    beq_iff_eq, decide_eq_true_eq] at h
  obtain ⟨⟨⟨⟨⟨⟨⟨⟨⟨⟨⟨⟨⟨⟨⟨⟨h1, h2⟩, h3⟩, h4⟩, h5⟩, h6⟩, h7⟩, h8⟩, h9⟩, h10⟩, h11⟩, h12⟩, h13⟩, h14⟩, h15⟩, h16⟩, h17⟩ := h
  refine ⟨h1, h2, h3, h4, h5, h6, h7, h8, h9, h10, h11, h12, h13, h14, h15, ?_, h17⟩
  intro p hp
  obtain ⟨hf, ht⟩ := h16 p hp
  exact ⟨by obtain ⟨f, hf1, hf2⟩ := hf; exact ⟨f, hf1, hf2⟩,
    by obtain ⟨t, ht1, ht2⟩ := ht; exact ⟨t, ht1, ht2⟩⟩

/-! ### The key resolver: determinism and collision resistance -/

theorem seg_cancel (a : List Char) : ∀ (b x y : List Char), '/' ∉ a → '/' ∉ b →
    a ++ '/' :: x = b ++ '/' :: y → a = b ∧ x = y := by
  induction a with
  | nil =>
    intro b x y _ hb h
    cases b with
    | nil => simpa using h
    | cons c bs =>
      simp only [List.nil_append, List.cons_append, List.cons.injEq] at h
      exact absurd (h.1 ▸ List.mem_cons_self c bs) hb
  | cons c as ih =>
    intro b x y ha hb h
    cases b with
    | nil =>
      simp only [List.cons_append, List.nil_append, List.cons.injEq] at h
      exact absurd (h.1 ▸ List.mem_cons_self c as) ha
    | cons c2 bs =>
      simp only [List.cons_append, List.cons.injEq] at h
      obtain ⟨rfl, h⟩ := h
      obtain ⟨h1, h2⟩ := ih bs x y (fun hc => ha (List.mem_cons_of_mem _ hc))
        (fun hc => hb (List.mem_cons_of_mem _ hc)) h
      exact ⟨by rw [h1], h2⟩

theorem slash_data : ("/" : String).data = ['/'] := rfl

theorem s3scheme_data : ("s3://" : String).data = ['s', '3', ':', '/', '/'] := rfl

theorem resolve_data (s3bucket s3prefix domain dataset_name stage mime_type sha256 ext : String) :
    (resolve_data_s3uri s3bucket s3prefix domain dataset_name stage mime_type sha256 ext).data =
    ['s', '3', ':', '/', '/'] ++ (s3bucket.data ++ ('/' :: (String.data s3prefix ++ ('/' :: (domain.data ++
      ('/' :: (dataset_name.data ++ ('/' :: (stage.data ++ ('/' :: (mime_type.data ++
      ('/' :: (sha256.data ++ ext.data))))))))))))) := by
  simp [resolve_data_s3uri, String.data_append, slash_data, s3scheme_data, List.append_assoc]

theorem stage_value_noSlash (st : DataStage) : '/' ∉ (DataStage.value st).data := by
  cases st <;> decide

theorem stage_value_inj (st1 st2 : DataStage) (h : DataStage.value st1 = DataStage.value st2) :
    st1 = st2 := by
  cases st1 <;> cases st2 <;> first | rfl | (exfalso; revert h; decide)

theorem string_data_inj (a b : String) (h : a.data = b.data) : a = b := by
  cases a; cases b; simp_all

/-- C4: the key resolver `resolve_data_s3uri` is deterministic (it is a
pure function of its inputs) and collision-resistant: with the remaining
inputs fixed, two distinct `(domain, dataset, stage, hash)` tuples resolve
to distinct URIs, provided the varying domain and dataset names are path
segments (contain no slash; the stage is an enum value and is always
slash-free). -/
theorem resolver_deterministic_and_collision_resistant
    (s3bucket s3prefix mime_type ext d1 n1 h1 d2 n2 h2 : String) (st1 st2 : DataStage)
    (hd1 : '/' ∉ d1.data) (hn1 : '/' ∉ n1.data) (hd2 : '/' ∉ d2.data) (hn2 : '/' ∉ n2.data)
    (hne : (d1, n1, st1, h1) ≠ (d2, n2, st2, h2)) :
    resolve_data_s3uri s3bucket s3prefix d1 n1 (DataStage.value st1) mime_type h1 ext =
      resolve_data_s3uri s3bucket s3prefix d1 n1 (DataStage.value st1) mime_type h1 ext ∧
    resolve_data_s3uri s3bucket s3prefix d1 n1 (DataStage.value st1) mime_type h1 ext ≠
      resolve_data_s3uri s3bucket s3prefix d2 n2 (DataStage.value st2) mime_type h2 ext := by
  refine ⟨rfl, fun heq => hne ?_⟩
  have hd := congrArg String.data heq
  rw [resolve_data, resolve_data] at hd
  have hd := List.append_cancel_left hd
  have hd := List.append_cancel_left hd
  simp only [List.cons.injEq, true_and] at hd
  have hd := List.append_cancel_left hd
  simp only [List.cons.injEq, true_and] at hd
  obtain ⟨hdom, hd⟩ := seg_cancel _ _ _ _ hd1 hd2 hd
  obtain ⟨hname, hd⟩ := seg_cancel _ _ _ _ hn1 hn2 hd
  obtain ⟨hstage, hd⟩ := seg_cancel _ _ _ _ (stage_value_noSlash st1) (stage_value_noSlash st2) hd
  have hd := List.append_cancel_left hd
  simp only [List.cons.injEq, true_and] at hd
  have hsha := List.append_cancel_right hd
  have e1 : d1 = d2 := string_data_inj _ _ hdom
  have e2 : n1 = n2 := string_data_inj _ _ hname
  have e3 : st1 = st2 := stage_value_inj _ _ (string_data_inj _ _ hstage)
  have e4 : h1 = h2 := string_data_inj _ _ hsha
  rw [e1, e2, e3, e4]

/-- C4 witness. -/
theorem resolver_deterministic_and_collision_resistant_witness :
    (resolve_data_s3uri "b" "p" "dom" "ds" (DataStage.value .raw) "text/plain" "h1" ".txt" =
      resolve_data_s3uri "b" "p" "dom" "ds" (DataStage.value .raw) "text/plain" "h1" ".txt") ∧
    (resolve_data_s3uri "b" "p" "dom" "ds" (DataStage.value .raw) "text/plain" "h1" ".txt" ≠
      resolve_data_s3uri "b" "p" "dom" "ds2" (DataStage.value .raw) "text/plain" "h1" ".txt") :=
  resolver_deterministic_and_collision_resistant "b" "p" "text/plain" ".txt" "dom" "ds" "h1"
    "dom" "ds2" "h1" .raw .raw (by decide) (by decide) (by decide) (by decide) (by decide)

/-! ### The URI hook: derived, not supplied -/

theorem commitS_ok (s s1 : Sess) (h : commitS s = (.ok (), s1)) :
    ∃ hooked, mapHook s.pendFiles = .ok hooked ∧ s1.db = s.flushed hooked := by
  unfold commitS at h
  cases hm : mapHook s.pendFiles with
  | error e => rw [hm] at h; simp at h
  | ok hooked =>
    rw [hm] at h
    simp only at h
    split at h
    · simp at h
    · refine ⟨hooked, rfl, ?_⟩
      have := (Prod.mk.injEq _ _ _ _).mp h
      rw [← this.2]

theorem mapHook_mem (l : List PendFile) (hooked : List FileRow) (h : mapHook l = .ok hooked)
    (f : FileRow) (hf : f ∈ hooked) : ∃ pf ∈ l, validate_and_compute_s3uri pf = .ok f := by
  induction l generalizing hooked with
  | nil =>
    simp only [mapHook] at h
    cases h
    cases hf
  | cons pf pfs ih =>
    simp only [mapHook] at h
    cases hv : validate_and_compute_s3uri pf with
    | error e => rw [hv] at h; cases h
    | ok r =>
      rw [hv] at h
      cases hm : mapHook pfs with
      | error e => rw [hm] at h; cases h
      | ok rs =>
        rw [hm] at h
        cases h
        rcases List.mem_cons.mp hf with rfl | hf
        · exact ⟨pf, by simp, hv⟩
        · obtain ⟨pf2, hpf2, hv2⟩ := ih rs hm hf
          exact ⟨pf2, by simp [hpf2], hv2⟩

theorem validate_ok_fields (pf : PendFile) (f : FileRow)
    (h : validate_and_compute_s3uri pf = .ok f) :
    f.s3bucket = pf.row.s3bucket ∧ FileRow.s3prefix f = FileRow.s3prefix pf.row ∧
    f.stage = pf.row.stage ∧ f.filename = pf.row.filename ∧ f.sha256 = pf.row.sha256 ∧
    f.mime_type = pf.row.mime_type ∧
    f.s3uri = resolve_data_s3uri pf.row.s3bucket (FileRow.s3prefix pf.row) pf.ds.domain pf.ds.name
      (DataStage.value pf.row.stage) pf.row.mime_type pf.row.sha256 (extOf pf.row.filename) := by
  unfold validate_and_compute_s3uri at h
  split at h
  · cases h
  · split at h
    · cases h
    · split at h
      · cases h
      · cases h
        simp

/-- C3: the storage URI is derived, not supplied.  First conjunct: the
before-insert hook ignores any caller-supplied `s3uri` value (its result is
the same whatever value the field held).  Second conjunct: after any
successful commit, every newly inserted file row's stored `s3uri` equals
the pure function `resolve_data_s3uri` of the row's own attributes and its
dataset's domain and name. -/
theorem s3uri_recomputed_before_insert :
    (∀ (pf : PendFile) (uri : String),
      validate_and_compute_s3uri { pf with row := { pf.row with s3uri := uri } } =
        validate_and_compute_s3uri pf) ∧
    (∀ (s s1 : Sess), commitS s = (.ok (), s1) → ∀ f ∈ s1.db.files, f ∉ s.db.files →
      ∃ pf ∈ s.pendFiles,
        f.s3uri = resolve_data_s3uri f.s3bucket (FileRow.s3prefix f) pf.ds.domain pf.ds.name
          (DataStage.value f.stage) f.mime_type f.sha256 (extOf f.filename)) := by
  constructor
  · intro pf uri
    unfold validate_and_compute_s3uri
    rfl
  · intro s s1 hc f hf hnew
    obtain ⟨hooked, hm, hdb⟩ := commitS_ok s s1 hc
    have hfiles : s1.db.files = s.db.files ++ hooked := by rw [hdb]; rfl
    rw [hfiles] at hf
    rcases List.mem_append.mp hf with hf | hf
    · exact absurd hf hnew
    · obtain ⟨pf, hpf, hv⟩ := mapHook_mem _ _ hm f hf
      obtain ⟨e1, e2, e3, e4, e5, e6, e7⟩ := validate_ok_fields pf f hv
      exact ⟨pf, hpf, by rw [e1, e2, e3, e4, e5, e6, e7]⟩

/-- C3 witness: committing the session holding the single pending file of
the first concrete probe scenario stores it with the derived URI. -/
theorem s3uri_recomputed_before_insert_witness :
    ∃ pf ∈ (Sess.mk probeSessWithDs.db [] []
        [PendFile.mk (FileRow.mk 1 1 "b" "p" .raw "a.txt" "h" "text/plain" 1 "caller-supplied") probeDs []]
        [] 2 1 2).pendFiles,
      FileRow.s3uri (FileRow.mk 1 1 "b" "p" .raw "a.txt" "h" "text/plain" 1
          (resolve_data_s3uri "b" "p" "dom" "ds" (DataStage.value .raw) "text/plain" "h" (extOf "a.txt"))) =
        resolve_data_s3uri "b" "p" "dom" "ds" (DataStage.value .raw) "text/plain" "h" (extOf "a.txt") := by
  have h := s3uri_recomputed_before_insert.2
    (Sess.mk probeSessWithDs.db [] []
      [PendFile.mk (FileRow.mk 1 1 "b" "p" .raw "a.txt" "h" "text/plain" 1 "caller-supplied") probeDs []]
      [] 2 1 2)
    (commitS (Sess.mk probeSessWithDs.db [] []
      [PendFile.mk (FileRow.mk 1 1 "b" "p" .raw "a.txt" "h" "text/plain" 1 "caller-supplied") probeDs []]
      [] 2 1 2)).2
    (by decide)
    (FileRow.mk 1 1 "b" "p" .raw "a.txt" "h" "text/plain" 1
      (resolve_data_s3uri "b" "p" "dom" "ds" (DataStage.value .raw) "text/plain" "h" (extOf "a.txt")))
    (by decide) (by decide)
  obtain ⟨pf, hpf, he⟩ := h
  exact ⟨pf, hpf, by simp [he]⟩

/-! ### The retrieval query -/

theorem mem_applyNameFilter (cfg : FetchCfg) (q : List (FileRow × DatasetRow))
    (fd : FileRow × DatasetRow) (h : fd ∈ applyNameFilter cfg q) : fd ∈ q := by
  unfold applyNameFilter at h
  cases hopt : optTruthy cfg.dataset_name with
  | none => rw [hopt] at h; exact h
  | some n => rw [hopt] at h; exact List.mem_of_mem_filter h

theorem mem_applyMimeFilter (cfg : FetchCfg) (q : List (FileRow × DatasetRow))
    (fd : FileRow × DatasetRow) (h : fd ∈ applyMimeFilter cfg q) : fd ∈ q := by
  unfold applyMimeFilter at h
  cases hopt : optTruthy cfg.mime with
  | none => rw [hopt] at h; exact h
  | some m => rw [hopt] at h; exact List.mem_of_mem_filter h

theorem mem_applyTagsFilter_iff (cfg : FetchCfg) (s : Sess) (q : List (FileRow × DatasetRow))
    (fd : FileRow × DatasetRow) (ts : List String) (hts : optListTruthy cfg.tags = some ts) :
    fd ∈ applyTagsFilter cfg s q ↔
      (fd ∈ q ∧ ∃ t ∈ tagsOfFile s fd.1.id, t.name ∈ ts) := by
  unfold applyTagsFilter
  rw [hts]
  constructor
  · intro h
    obtain ⟨fd2, hfd2, hmem⟩ := List.mem_flatMap.mp h
    obtain ⟨t, htf, hfd⟩ := List.mem_map.mp hmem
    obtain ⟨ht1, ht2⟩ := List.mem_filter.mp htf
    subst hfd
    exact ⟨hfd2, t, ht1, by simpa using ht2⟩
  · rintro ⟨hq, t, ht1, ht2⟩
    exact List.mem_flatMap.mpr ⟨fd, hq,
      List.mem_map.mpr ⟨t, List.mem_filter.mpr ⟨ht1, by simpa using ht2⟩, rfl⟩⟩

theorem mem_applyTagsFilter (cfg : FetchCfg) (s : Sess) (q : List (FileRow × DatasetRow))
    (fd : FileRow × DatasetRow) (h : fd ∈ applyTagsFilter cfg s q) :
    fd ∈ q ∧ (∀ ts, optListTruthy cfg.tags = some ts → ∃ t ∈ tagsOfFile s fd.1.id, t.name ∈ ts) := by
  cases hts : optListTruthy cfg.tags with
  | none =>
    unfold applyTagsFilter at h
    rw [hts] at h
    exact ⟨h, by intro ts h'; cases h'⟩
  | some ts =>
    obtain ⟨hq, hex⟩ := (mem_applyTagsFilter_iff cfg s q fd ts hts).mp h
    refine ⟨hq, fun ts2 h2 => ?_⟩
    injection h2 with h3
    exact h3 ▸ hex

theorem mem_joinBase (cfg : FetchCfg) (s : Sess) (fd : FileRow × DatasetRow) :
    fd ∈ joinBase cfg s ↔
      (fd.1 ∈ s.liveFiles ∧
       s.liveDatasets.find? (fun d => d.id == fd.1.dataset_id) = some fd.2 ∧
       fd.2.domain = cfg.domain ∧ fd.1.stage = cfg.stage) := by
  unfold joinBase
  constructor
  · intro h
    obtain ⟨h, hstage⟩ := List.mem_filter.mp h
    obtain ⟨h, hdom⟩ := List.mem_filter.mp h
    obtain ⟨f, hf, hmap⟩ := List.mem_filterMap.mp h
    cases hfind : s.liveDatasets.find? (fun d => d.id == f.dataset_id) with
    | none => rw [hfind] at hmap; cases hmap
    | some d =>
      rw [hfind] at hmap
      simp only [Option.map_some', Option.some.injEq] at hmap
      subst hmap
      simp only [beq_iff_eq] at hdom hstage
      exact ⟨hf, hfind, hdom, hstage⟩
  · rintro ⟨hf, hfind, hdom, hstage⟩
    refine List.mem_filter.mpr ⟨List.mem_filter.mpr ⟨?_, by simp [hdom]⟩, by simp [hstage]⟩
    exact List.mem_filterMap.mpr ⟨fd.1, hf, by rw [hfind]; rfl⟩

theorem mem_fetchJoin (cfg : FetchCfg) (s : Sess) (fd : FileRow × DatasetRow)
    (h : fd ∈ fetchJoin cfg s) :
    fd.1 ∈ s.liveFiles ∧
    s.liveDatasets.find? (fun d => d.id == fd.1.dataset_id) = some fd.2 ∧
    fd.2.domain = cfg.domain ∧ fd.1.stage = cfg.stage := by
  unfold fetchJoin at h
  have h := mem_applyTagsFilter cfg s _ fd h
  have h := mem_applyMimeFilter cfg _ fd h.1
  have h := mem_applyNameFilter cfg _ fd h
  exact (mem_joinBase cfg s fd).mp h

theorem mem_fetchRecords (cfg : FetchCfg) (s : Sess) (f : FileRow)
    (h : f ∈ fetchRecords cfg s) : ∃ d, (f, d) ∈ fetchJoin cfg s := by
  unfold fetchRecords at h
  have h := List.mem_of_mem_take h
  obtain ⟨fd, hfd, hf⟩ := List.mem_map.mp h
  subst hf
  exact ⟨fd.2, hfd⟩

/-- C9 (corrected): the `filenames` and `sha256` filter fields of the fetch
configuration have no effect on the query result (they are accepted but
never applied); the mandatory domain and stage filters are always
enforced. -/
theorem fetch_filename_hash_filters_ignored :
    (∀ (cfg : FetchCfg) (s : Sess) (fns shs : Option (List String)),
      fetchRecords { cfg with filenames := fns, sha256 := shs } s = fetchRecords cfg s) ∧
    (∀ (cfg : FetchCfg) (s : Sess) (f : FileRow), f ∈ fetchRecords cfg s →
      f.stage = cfg.stage ∧
      ∃ d, s.liveDatasets.find? (fun d0 => d0.id == f.dataset_id) = some d ∧
        d.domain = cfg.domain) := by
  constructor
  · intro cfg s fns shs
    rfl
  · intro cfg s f h
    obtain ⟨d, hd⟩ := mem_fetchRecords cfg s f h
    obtain ⟨h1, h2, h3, h4⟩ := mem_fetchJoin cfg s (f, d) hd
    exact ⟨h4, d, h2, h3⟩

/-- A fetch configuration supplying a filename filter that matches no
stored file. -/
def probeFetchCfgFn : FetchCfg :=
  { domain := "dom", stage := .raw, dataset_name := none, mime := none,
    tags := none, filenames := some ["other.txt"], sha256 := some ["nohash"], limit := 10 }

/-- C9 counterexample: with a filename set (and hash set) supplied, the
query still returns a file whose filename (and hash) is not in the supplied
set — the filters are not applied. -/
theorem fetch_filename_hash_filters_ignored_counterexample :
    (∃ f ∈ fetchRecords probeFetchCfgFn probeFetchSess,
      ¬ (FileRow.filename f ∈ ["other.txt"]) ∧ ¬ (FileRow.sha256 f ∈ ["nohash"])) := by
  decide

/-- C9 witness. -/
theorem fetch_filename_hash_filters_ignored_witness :
    (fetchRecords { probeFetchCfgFn with filenames := some ["x"], sha256 := some ["y"] } probeFetchSess =
      fetchRecords probeFetchCfgFn probeFetchSess) ∧
    (FileRow.stage (FileRow.mk 1 1 "b" "p" .raw "f1.txt" "h1" "text/plain" 1
        "s3://b/p/dom/ds/raw/text/plain/h1.txt") = probeFetchCfgFn.stage ∧
      ∃ d, probeFetchSess.liveDatasets.find? (fun d0 => d0.id ==
          FileRow.dataset_id (FileRow.mk 1 1 "b" "p" .raw "f1.txt" "h1" "text/plain" 1
            "s3://b/p/dom/ds/raw/text/plain/h1.txt")) = some d ∧
        d.domain = probeFetchCfgFn.domain) :=
  ⟨fetch_filename_hash_filters_ignored.1 probeFetchCfgFn probeFetchSess (some ["x"]) (some ["y"]),
   fetch_filename_hash_filters_ignored.2 probeFetchCfgFn probeFetchSess _ (by decide)⟩

/-- C10: tag names are normalized when stored, but the retrieval pipeline
matches tag filters verbatim.  First conjunct: the `serialize_tags`
validator returns any non-empty tag list unchanged (it rewrites only the
empty list).  Second conjunct: on a well-formed registry (whose stored tag
names are all fixed points of normalization), a query whose tag filters are
all non-normalized variants (uppercase or padded) returns nothing at
all — in particular it does not return a file carrying the normalized
variant of such a tag. -/
theorem tag_filter_matches_verbatim :
    (∀ ts : List String, ts ≠ [] → serialize_tags ts = ts) ∧
    (∀ (s : Sess) (cfg : FetchCfg) (qs : List String), wf s = true → cfg.tags = some qs →
      qs ≠ [] → (∀ q ∈ qs, normalize_tag_name q ≠ q) → fetchRecords cfg s = []) := by
  constructor
  · intro ts hne
    unfold serialize_tags
    rw [if_neg (by simpa using hne)]
  · intro s cfg qs hwf htags hne hvar
    have hjoin : fetchJoin cfg s = [] := by
      refine List.eq_nil_iff_forall_not_mem.mpr (fun fd hfd => ?_)
      unfold fetchJoin at hfd
      have hopt : optListTruthy cfg.tags = some qs := by
        rw [htags]
        unfold optListTruthy
        cases qs with
        | nil => exact absurd rfl hne
        | cons a as => rfl
      obtain ⟨_, hex⟩ := mem_applyTagsFilter cfg s _ fd hfd
      obtain ⟨t, htf, htn⟩ := hex qs hopt
      have htlive : t ∈ s.liveTags := by
        unfold tagsOfFile at htf
        obtain ⟨p, _, hfind⟩ := List.mem_filterMap.mp htf
        exact List.mem_of_find?_eq_some hfind
      obtain ⟨_, hpt, _, _, _, _, _, _, _, _, _, _, _, _, _, _, hnorm⟩ := wf_spec s hwf
      have htdb : t ∈ s.db.tags := by
        unfold Sess.liveTags at htlive
        rw [hpt] at htlive
        simpa using htlive
      exact hvar t.name htn ((hnorm t htdb).symm)
    unfold fetchRecords
    rw [hjoin]
    simp

/-- C10 witness: the file tagged `a` is not returned when the query
supplies the variant `A`, which `serialize_tags` passes through unchanged. -/
theorem tag_filter_matches_verbatim_witness :
    serialize_tags ["A"] = ["A"] ∧
    fetchRecords { probeFetchCfg with tags := some ["A"] } probeFetchSess = [] :=
  ⟨tag_filter_matches_verbatim.1 ["A"] (by decide),
   tag_filter_matches_verbatim.2 probeFetchSess { probeFetchCfg with tags := some ["A"] } ["A"]
     (by decide) rfl (by decide) (by decide)⟩

/-- C8: with a tags filter (and the other optional filters unset), the
query returns exactly the files that match the mandatory domain and stage
filters and carry at least one of the given tag names (union semantics),
and the result is capped at the configured limit. -/
theorem fetch_tags_union (s : Sess) (cfg : FetchCfg) (ts : List String) (f : FileRow)
    (hdn : cfg.dataset_name = none) (hm : cfg.mime = none)
    (ht : cfg.tags = some ts) (hne : ts ≠ [])
    (hlim : (fetchJoin cfg s).length ≤ cfg.limit) :
    (f ∈ fetchRecords cfg s ↔
      (f ∈ s.liveFiles ∧ ∃ d, s.liveDatasets.find? (fun d0 => d0.id == f.dataset_id) = some d ∧
        d.domain = cfg.domain ∧ f.stage = cfg.stage ∧ ∃ t ∈ tagsOfFile s f.id, t.name ∈ ts)) ∧
    (fetchRecords cfg s).length ≤ cfg.limit := by
  have hopt : optListTruthy cfg.tags = some ts := by
    rw [ht]
    unfold optListTruthy
    cases ts with
    | nil => exact absurd rfl hne
    | cons a as => rfl
  have hfull : fetchRecords cfg s = (fetchJoin cfg s).map Prod.fst := by
    unfold fetchRecords
    exact List.take_of_length_le (by simpa using hlim)
  have hjoin : ∀ fd : FileRow × DatasetRow, fd ∈ fetchJoin cfg s ↔
      (fd ∈ joinBase cfg s ∧ ∃ t ∈ tagsOfFile s fd.1.id, t.name ∈ ts) := by
    intro fd
    unfold fetchJoin
    unfold applyMimeFilter
    rw [show optTruthy cfg.mime = none from by rw [hm]; rfl]
    unfold applyNameFilter
    rw [show optTruthy cfg.dataset_name = none from by rw [hdn]; rfl]
    exact mem_applyTagsFilter_iff cfg s _ fd ts hopt
  constructor
  · rw [hfull]
    constructor
    · intro h
      obtain ⟨fd, hfd, hf⟩ := List.mem_map.mp h
      subst hf
      obtain ⟨hbase, hex⟩ := (hjoin fd).mp hfd
      obtain ⟨h1, h2, h3, h4⟩ := (mem_joinBase cfg s fd).mp hbase
      exact ⟨h1, fd.2, h2, h3, h4, hex⟩
    · rintro ⟨hf, d, hfind, hdom, hstage, hex⟩
      refine List.mem_map.mpr ⟨(f, d), ?_, rfl⟩
      exact (hjoin (f, d)).mpr ⟨(mem_joinBase cfg s (f, d)).mpr ⟨hf, hfind, hdom, hstage⟩, hex⟩
  · unfold fetchRecords
    simp [List.length_take_le]

/-- C8 witness: of the three files tagged a, b, and both, querying with
tag list `a` returns the first and third and not the second. -/
theorem fetch_tags_union_witness :
    ((FileRow.mk 1 1 "b" "p" .raw "f1.txt" "h1" "text/plain" 1
        "s3://b/p/dom/ds/raw/text/plain/h1.txt") ∈ fetchRecords probeFetchCfg probeFetchSess ↔
      ((FileRow.mk 1 1 "b" "p" .raw "f1.txt" "h1" "text/plain" 1
          "s3://b/p/dom/ds/raw/text/plain/h1.txt") ∈ probeFetchSess.liveFiles ∧
        ∃ d, probeFetchSess.liveDatasets.find? (fun d0 => d0.id == (1 : Nat)) = some d ∧
          d.domain = probeFetchCfg.domain ∧
          DataStage.raw = probeFetchCfg.stage ∧
          ∃ t ∈ tagsOfFile probeFetchSess 1, t.name ∈ ["a"])) ∧
    (fetchRecords probeFetchCfg probeFetchSess).length ≤ probeFetchCfg.limit :=
  fetch_tags_union probeFetchSess probeFetchCfg ["a"]
    (FileRow.mk 1 1 "b" "p" .raw "f1.txt" "h1" "text/plain" 1
      "s3://b/p/dom/ds/raw/text/plain/h1.txt")
    rfl rfl rfl (by decide) (by decide)

/-! ### Dataset get-or-create and the transaction scope -/

theorem get_dataset_none_spec (s : Sess) (domain name : String)
    (hpd : s.pendDatasets = []) (hfresh : get_dataset domain name s = none) :
    ∀ d ∈ s.db.datasets, ¬((DatasetRow.name d, DatasetRow.domain d) = (name, domain)) := by
  unfold get_dataset at hfresh
  have h := List.find?_eq_none.mp hfresh
  intro d hd hc
  have hd2 : d ∈ s.liveDatasets := by
    unfold Sess.liveDatasets
    rw [hpd]
    simpa using hd
  have h3 := h d hd2
  simp only [Bool.and_eq_true, beq_iff_eq] at h3
  simp only [Prod.mk.injEq] at hc
  exact h3 hc

theorem create_dataset_ok (s : Sess) (domain name : String) (descr : Option String)
    (hwf : wf s = true) (hfresh : get_dataset domain name s = none) :
    create_dataset domain name descr s =
      (.ok (DatasetRow.mk s.nextDatasetId name descr domain),
        { s with
          db := Reg.mk (s.db.datasets ++ [DatasetRow.mk s.nextDatasetId name descr domain])
            s.db.tags s.db.files s.db.fileTags,
          pendDatasets := [], pendTags := [], pendFiles := [], pendFileTags := [],
          nextDatasetId := s.nextDatasetId + 1 }) := by
  obtain ⟨hpd, hpt, hpf, hpft, h5, h6, h7, h8, h9, _⟩ := wf_spec s hwf
  have hall := get_dataset_none_spec s domain name hpd hfresh
  have hds : nodupBy (fun d => (DatasetRow.name d, DatasetRow.domain d))
      (s.db.datasets ++ [DatasetRow.mk s.nextDatasetId name descr domain]) = true := by
    refine nodupBy_append_one _ _ _ h5 (fun y hy => ?_)
    simpa using hall y hy
  unfold create_dataset commitS Sess.flushed
  simp [hpd, hpt, hpf, hpft, mapHook, hds, h6, h7, h8, h9]

/-- C6: `add_dataset` (the spec's `ensure_dataset`) is get-or-create.  On a
well-formed state: when a dataset with the given domain and name exists,
`exists_ok = true` returns it unchanged while `exists_ok = false` raises
`DatasetExist`; when none exists, the call creates and returns a new
record, and a second call with `exists_ok = true` returns the same record
with the same id without touching the state, a second call with
`exists_ok = false` raises `DatasetExist`, and exactly one row with that
key exists. -/
theorem ensure_dataset_get_or_create (s : Sess) (domain name : String)
    (descr descr2 : Option String) (hwf : wf s = true) :
    (∀ d0, get_dataset domain name s = some d0 →
      add_dataset domain name descr true s = (.ok d0, s) ∧
      add_dataset domain name descr false s = (.error .datasetExist, s)) ∧
    (get_dataset domain name s = none →
      ∃ s1, add_dataset domain name descr true s =
          (.ok (DatasetRow.mk s.nextDatasetId name descr domain), s1) ∧
        s1.db.datasets = s.db.datasets ++ [DatasetRow.mk s.nextDatasetId name descr domain] ∧
        s1.db.tags = s.db.tags ∧ s1.db.files = s.db.files ∧ s1.db.fileTags = s.db.fileTags ∧
        add_dataset domain name descr2 true s1 =
          (.ok (DatasetRow.mk s.nextDatasetId name descr domain), s1) ∧
        add_dataset domain name descr2 false s1 = (.error .datasetExist, s1) ∧
        (s1.db.datasets.filter
          (fun d => d.name == name && d.domain == domain)).length = 1) := by
  constructor
  · intro d0 hsome
    unfold add_dataset
    rw [hsome]
    exact ⟨rfl, rfl⟩
  · intro hfresh
    obtain ⟨hpd, _⟩ := wf_spec s hwf
    have hall := get_dataset_none_spec s domain name hpd hfresh
    have hcreate := create_dataset_ok s domain name descr hwf hfresh
    have hfind0 : List.find? (fun d => d.name == name && d.domain == domain) s.db.datasets =
        none := by
      refine List.find?_eq_none.mpr (fun d hd => ?_)
      simpa using fun h1 h2 => hall d hd (by simp [h1, h2])
    have hget1 : get_dataset domain name
        { s with
          db := Reg.mk (s.db.datasets ++ [DatasetRow.mk s.nextDatasetId name descr domain])
            s.db.tags s.db.files s.db.fileTags,
          pendDatasets := [], pendTags := [], pendFiles := [], pendFileTags := [],
          nextDatasetId := s.nextDatasetId + 1 } =
        some (DatasetRow.mk s.nextDatasetId name descr domain) := by
      unfold get_dataset Sess.liveDatasets
      simp only [List.append_nil]
      rw [List.find?_append, hfind0]
      simp
    refine ⟨{ s with
        db := Reg.mk (s.db.datasets ++ [DatasetRow.mk s.nextDatasetId name descr domain])
          s.db.tags s.db.files s.db.fileTags,
        pendDatasets := [], pendTags := [], pendFiles := [], pendFileTags := [],
        nextDatasetId := s.nextDatasetId + 1 }, ?_, rfl, rfl, rfl, rfl, ?_, ?_, ?_⟩
    · unfold add_dataset
      rw [hfresh]
      exact hcreate
    · unfold add_dataset
      rw [hget1]
      rfl
    · unfold add_dataset
      rw [hget1]
      rfl
    · simp only [List.filter_append, hfind0]
      rw [show List.filter (fun d => d.name == name && d.domain == domain) s.db.datasets =
          [] from List.filter_eq_nil_iff.mpr (fun d hd => by
        simpa using fun h1 h2 => hall d hd (by simp [h1, h2]))]
      simp

/-- C6 witness. -/
theorem ensure_dataset_get_or_create_witness :
    ∃ s1, add_dataset "dom" "ds" none true emptySess =
        (.ok (DatasetRow.mk 1 "ds" none "dom"), s1) ∧
      s1.db.datasets = emptySess.db.datasets ++ [DatasetRow.mk 1 "ds" none "dom"] ∧
      s1.db.tags = emptySess.db.tags ∧ s1.db.files = emptySess.db.files ∧
      s1.db.fileTags = emptySess.db.fileTags ∧
      add_dataset "dom" "ds" (some "again") true s1 = (.ok (DatasetRow.mk 1 "ds" none "dom"), s1) ∧
      add_dataset "dom" "ds" (some "again") false s1 = (.error .datasetExist, s1) ∧
      (s1.db.datasets.filter (fun d => d.name == "ds" && d.domain == "dom")).length = 1 :=
  (ensure_dataset_get_or_create emptySess "dom" "ds" none (some "again") (by decide)).2
    (by decide)

theorem add_tag_false_spec (n : String) (s : Sess) :
    ∃ t s1, add_tag n false s = (.ok t, s1) ∧ s1.db = s.db ∧
      s1.pendDatasets = s.pendDatasets ∧ s1.pendFiles = s.pendFiles ∧
      s1.pendFileTags = s.pendFileTags ∧ t.name = normalize_tag_name n ∧
      ((s1 = s ∧ get_tag n s = some t) ∨
       (get_tag n s = none ∧ t = TagRow.mk s.nextTagId (normalize_tag_name n) ∧
        s1 = { s with pendTags := s.pendTags ++ [t], nextTagId := s.nextTagId + 1 })) := by
  unfold add_tag
  cases hg : get_tag n s with
  | none =>
    refine ⟨TagRow.mk s.nextTagId (normalize_tag_name n), _, rfl, rfl, rfl, rfl, rfl, rfl, ?_⟩
    exact Or.inr ⟨rfl, rfl, rfl⟩
  | some t =>
    refine ⟨t, s, rfl, rfl, rfl, rfl, rfl, ?_, Or.inl ⟨rfl, rfl⟩⟩
    have := List.find?_some hg
    simpa using this

theorem tagsLoop_spec (ts : List String) : ∀ s : Sess,
    ∃ trs s1, tagsLoop ts s = (.ok trs, s1) ∧ s1.db = s.db ∧
      s1.pendDatasets = s.pendDatasets ∧ s1.pendFiles = s.pendFiles ∧
      s1.pendFileTags = s.pendFileTags := by
  induction ts with
  | nil => intro s; exact ⟨[], s, rfl, rfl, rfl, rfl, rfl⟩
  | cons n ns ih =>
    intro s
    obtain ⟨t, s1, ht, hdb, hd, hf, hft, _, _⟩ := add_tag_false_spec (pyStrip n) s
    obtain ⟨trs, s2, hloop, hdb2, hd2, hf2, hft2⟩ := ih s1
    refine ⟨t :: trs, s2, ?_, by rw [hdb2, hdb], by rw [hd2, hd], by rw [hf2, hf],
      by rw [hft2, hft]⟩
    simp only [tagsLoop, ht, hloop]

theorem add_file_record_spec (ds : DatasetRow) (bucket pfx fn sha mime : String)
    (size : Nat) (stage : DataStage) (tags : Option (List String)) (s : Sess) :
    ∃ r s1, add_file_record ds bucket pfx fn sha mime size stage tags s = (.ok r, s1) ∧
      s1.db = s.db ∧ s1.pendDatasets = s.pendDatasets := by
  unfold add_file_record
  dsimp only
  cases hempt : (tags.getD []).isEmpty with
  | true =>
    rw [if_pos rfl]
    exact ⟨_, _, rfl, rfl, rfl⟩
  | false =>
    rw [if_neg (by simp)]
    obtain ⟨trs, s1, hloop, hdb, hd, hf, hft⟩ := tagsLoop_spec (tags.getD []) s
    rw [hloop]
    exact ⟨_, _, rfl, hdb, hd⟩

/-- The C1 scenario body: create the dataset (which commits internally),
then fail before the file insert, inside one shared transaction scope. -/
def create_then_fail (domain name : String) (descr : Option String) (s : Sess) :
    Except Err Unit × Sess :=
  match create_dataset domain name descr s with
  | (.ok _, s1) => (.error .simulated, s1)
  | (.error e, s1) => (.error e, s1)

/-- A body that stages a file insert (no internal commit) and then fails. -/
def stage_then_fail (ds : DatasetRow) (bucket pfx fn sha mime : String) (size : Nat)
    (stage : DataStage) (tags : Option (List String)) (s : Sess) : Except Err Unit × Sess :=
  match add_file_record ds bucket pfx fn sha mime size stage tags s with
  | (.ok _, s1) => (.error .simulated, s1)
  | (.error e, s1) => (.error e, s1)

/-- C1 counterexample: a failure after `create_dataset` inside one
transaction scope does not restore the pre-transaction state — the new
dataset row is already committed (because `create_dataset` commits
internally) and survives the rollback, contradicting the claim that the
registry state observable after the failure equals the state before the
transaction began. -/
theorem transaction_rollback_counterexample :
    (transaction (create_then_fail "dom" "ds" none) emptySess).1 = .error .simulated ∧
    (transaction (create_then_fail "dom" "ds" none) emptySess).2.db.datasets =
      [DatasetRow.mk 1 "ds" none "dom"] ∧
    (transaction (create_then_fail "dom" "ds" none) emptySess).2 ≠ emptySess := by
  decide

/-- C1 (corrected): on a well-formed state, writes that are merely pending
in the session when an exception occurs are rolled back — a staged file
insert leaves the database unchanged — but `create_dataset` commits
internally, so a dataset created inside a failing transaction scope
survives: the scenario of a failure after dataset creation and before the
file insert leaves no file row, yet the newly created dataset row remains. -/
theorem transaction_rollback_amended (s : Sess) (domain name : String) (descr : Option String)
    (ds : DatasetRow) (bucket pfx fn sha mime : String) (size : Nat) (stage : DataStage)
    (tags : Option (List String))
    (hwf : wf s = true) (hfresh : get_dataset domain name s = none) :
    (transaction (create_then_fail domain name descr) s =
      (.error .simulated,
        { s with
          db := Reg.mk (s.db.datasets ++ [DatasetRow.mk s.nextDatasetId name descr domain])
            s.db.tags s.db.files s.db.fileTags,
          pendDatasets := [], pendTags := [], pendFiles := [], pendFileTags := [],
          nextDatasetId := s.nextDatasetId + 1 }) ∧
      (transaction (create_then_fail domain name descr) s).2.db.files = s.db.files ∧
      (transaction (create_then_fail domain name descr) s).2.db.datasets =
        s.db.datasets ++ [DatasetRow.mk s.nextDatasetId name descr domain]) ∧
    ((transaction (stage_then_fail ds bucket pfx fn sha mime size stage tags) s).1 =
        .error .simulated ∧
      (transaction (stage_then_fail ds bucket pfx fn sha mime size stage tags) s).2.db = s.db) := by
  have hcreate := create_dataset_ok s domain name descr hwf hfresh
  constructor
  · have htx : transaction (create_then_fail domain name descr) s =
        (.error .simulated,
          { s with
            db := Reg.mk (s.db.datasets ++ [DatasetRow.mk s.nextDatasetId name descr domain])
              s.db.tags s.db.files s.db.fileTags,
            pendDatasets := [], pendTags := [], pendFiles := [], pendFileTags := [],
            nextDatasetId := s.nextDatasetId + 1 }) := by
      unfold transaction create_then_fail
      rw [hcreate]
      rfl
    exact ⟨htx, by rw [htx], by rw [htx]⟩
  · obtain ⟨r, s1, hrec, hdb, _⟩ := add_file_record_spec ds bucket pfx fn sha mime size stage tags s
    have htx : transaction (stage_then_fail ds bucket pfx fn sha mime size stage tags) s =
        (.error .simulated, rollbackS s1) := by
      unfold transaction stage_then_fail
      rw [hrec]
    rw [htx]
    exact ⟨rfl, hdb⟩

/-- C1 witness. -/
theorem transaction_rollback_amended_witness :
    (transaction (create_then_fail "dom" "ds" none) emptySess =
      (.error .simulated,
        { emptySess with
          db := Reg.mk (emptySess.db.datasets ++ [DatasetRow.mk 1 "ds" none "dom"])
            emptySess.db.tags emptySess.db.files emptySess.db.fileTags,
          pendDatasets := [], pendTags := [], pendFiles := [], pendFileTags := [],
          nextDatasetId := 2 }) ∧
      (transaction (create_then_fail "dom" "ds" none) emptySess).2.db.files =
        emptySess.db.files ∧
      (transaction (create_then_fail "dom" "ds" none) emptySess).2.db.datasets =
        emptySess.db.datasets ++ [DatasetRow.mk 1 "ds" none "dom"]) ∧
    ((transaction (stage_then_fail probeDs "b" "p" "a.txt" "h" "text/plain" 1 .raw none)
        emptySess).1 = .error .simulated ∧
      (transaction (stage_then_fail probeDs "b" "p" "a.txt" "h" "text/plain" 1 .raw none)
        emptySess).2.db = emptySess.db) :=
  transaction_rollback_amended emptySess "dom" "ds" none probeDs "b" "p" "a.txt" "h" "text/plain"
    1 .raw none (by decide) (by decide)

/-! ### Idempotent tagging -/

theorem eq_of_nodupBy_key {α β : Type} [DecidableEq β] (key : α → β) (l : List α)
    (h : nodupBy key l = true) (x y : α) (hx : x ∈ l) (hy : y ∈ l) (hk : key x = key y) :
    x = y := by
  induction l with
  | nil => cases hx
  | cons a as ih =>
    simp only [nodupBy, Bool.and_eq_true, List.all_eq_true] at h
    have hne : ∀ z ∈ as, key z ≠ key a := fun z hz => by simpa using h.1 z hz
    rcases List.mem_cons.mp hx with h1 | h1
    · rcases List.mem_cons.mp hy with h2 | h2
      · rw [h1, h2]
      · exfalso
        apply hne y h2
        rw [← hk, h1]
    · rcases List.mem_cons.mp hy with h2 | h2
      · exfalso
        apply hne x h1
        rw [hk, h2]
      · exact ih h.2 h1 h2

theorem nodupBy_filter {α β : Type} [DecidableEq β] (key : α → β) (q : α → Bool) (l : List α)
    (h : nodupBy key l = true) : nodupBy key (l.filter q) = true := by
  induction l with
  | nil => simp [nodupBy]
  | cons a as ih =>
    simp only [nodupBy, Bool.and_eq_true, List.all_eq_true] at h
    rw [List.filter_cons]
    split
    · simp only [nodupBy, Bool.and_eq_true, List.all_eq_true]
      exact ⟨fun y hy => h.1 y (List.mem_of_mem_filter hy), ih h.2⟩
    · exact ih h.2

theorem filter_length_one {α : Type} [DecidableEq α] (l : List α) (q : α → Bool) (x : α)
    (hnd : nodupBy id l = true) (hx : x ∈ l) (hq : q x = true)
    (huniq : ∀ p ∈ l, q p = true → p = x) : (l.filter q).length = 1 := by
  induction l with
  | nil => cases hx
  | cons a as ih =>
    simp only [nodupBy, Bool.and_eq_true, List.all_eq_true, id] at hnd
    have hne : ∀ z ∈ as, z ≠ a := fun z hz => by simpa using hnd.1 z hz
    rcases List.mem_cons.mp hx with h1 | h1
    · have hrest : as.filter q = [] := by
        refine List.filter_eq_nil_iff.mpr (fun y hy hqy => ?_)
        have h2 := huniq y (List.mem_cons_of_mem _ hy) hqy
        exact hne y hy (by rw [h2, h1])
      rw [List.filter_cons, if_pos (by rw [← h1]; exact hq), hrest]
      rfl
    · have hqa : q a = false := by
        cases hqa : q a with
        | false => rfl
        | true =>
          exfalso
          have h2 := huniq a (by simp) hqa
          exact hne x h1 h2.symm
      rw [List.filter_cons, if_neg (by simp [hqa])]
      exact ih hnd.2 h1 (fun p hp hqp => huniq p (List.mem_cons_of_mem _ hp) hqp)

theorem filterMap_opt_filter_len (g : Nat × Nat → Option TagRow) (pn : TagRow → Bool)
    (assocs : List (Nat × Nat)) :
    ((assocs.filterMap g).filter pn).length =
      (assocs.filter (fun p => match g p with | some t => pn t | none => false)).length := by
  induction assocs with
  | nil => rfl
  | cons a as ih =>
    rw [List.filterMap_cons, List.filter_cons]
    cases hg : g a with
    | none => simpa [hg] using ih
    | some t =>
      cases hpn : pn t with
      | true => simpa [List.filter_cons, hg, hpn] using congrArg Nat.succ ih
      | false => simpa [List.filter_cons, hg, hpn] using ih

/-- The number of association rows linking the given file to a tag whose
stored name is `tname`, as visible to the session. -/
def assocCount (s : Sess) (file_id : Nat) (tname : String) : Nat :=
  ((tagsOfFile s file_id).filter (fun t => t.name == tname)).length

theorem get_tag_some_spec (n : String) (s : Sess) (t : TagRow) (h : get_tag n s = some t) :
    t ∈ s.liveTags ∧ t.name = normalize_tag_name n :=
  ⟨List.mem_of_find?_eq_some h, by simpa using List.find?_some h⟩

theorem get_tag_none_spec (n : String) (s : Sess) (h : get_tag n s = none) :
    ∀ t ∈ s.liveTags, t.name ≠ normalize_tag_name n := by
  intro t ht
  have := List.find?_eq_none.mp h t ht
  simpa using this

theorem get_tag_congr (n1 n2 : String) (s : Sess)
    (h : normalize_tag_name n1 = normalize_tag_name n2) : get_tag n1 s = get_tag n2 s := by
  unfold get_tag
  rw [h]

theorem add_tags2file_single (s : Sess) (fid : Nat) (f : FileRow) (n : String)
    (hwf : wf s = true) (hfid : fid ≠ 0)
    (hf : s.liveFiles.find? (fun fr => fr.id == fid) = some f) :
    ∃ t s1, add_tags2file fid [n] s = (.ok f, s1) ∧
      t.name = normalize_tag_name n ∧
      get_tag n s1 = some t ∧
      t ∈ s1.liveTags ∧
      (fid, t.id) ∈ s1.liveFileTags ∧
      s1.liveFiles = s.liveFiles ∧ s1.db = s.db ∧
      nodupBy TagRow.id s1.liveTags = true ∧
      nodupBy TagRow.name s1.liveTags = true ∧
      nodupBy id s1.liveFileTags = true ∧
      (∀ p ∈ s1.liveFileTags, p.1 = fid →
        ∀ t2, s1.liveTags.find? (fun z => z.id == p.2) = some t2 →
        t2.name = normalize_tag_name n → p = (fid, t.id)) := by
  obtain ⟨hpd, hpt, hpf, hpft, _, h6, _, _, h9, _, h11, _, _, h14, _, h16, _⟩ := wf_spec s hwf
  have hLT : s.liveTags = s.db.tags := by
    unfold Sess.liveTags
    rw [hpt, List.append_nil]
  have hLFT : s.liveFileTags = s.db.fileTags := by
    unfold Sess.liveFileTags
    rw [hpft, hpf]
    simp
  have hrec : add_tags2file fid [n] s = add_tags2file_go fid f [n] s := by
    unfold add_tags2file get_file_record
    rw [if_neg hfid, hf]
  cases hg : get_tag n s with
  | some t =>
    have hat : add_tag n false s = (.ok t, s) := by
      unfold add_tag
      rw [hg]
    have hgo : add_tags2file_go fid f [n] s =
        (if s.liveFileTags.contains (fid, t.id) then ((.ok f : Except Err FileRow), s)
         else (.ok f, { s with pendFileTags := s.pendFileTags ++ [(fid, t.id)] })) := by
      simp only [add_tags2file_go, hat]
    obtain ⟨htmem, htname⟩ := get_tag_some_spec n s t hg
    have htdb : t ∈ s.db.tags := hLT ▸ htmem
    have huniq0 : ∀ p ∈ s.db.fileTags, p.1 = fid →
        ∀ t2, s.liveTags.find? (fun z => z.id == p.2) = some t2 →
        t2.name = normalize_tag_name n → p = (fid, t.id) := by
      intro p hp hp1 t2 hfind ht2n
      have ht2mem : t2 ∈ s.db.tags := hLT ▸ List.mem_of_find?_eq_some hfind
      have ht2id : t2.id = p.2 := by simpa using List.find?_some hfind
      have : t2 = t := eq_of_nodupBy_key TagRow.name s.db.tags h6 t2 t ht2mem htdb
        (by rw [ht2n, htname])
      exact Prod.ext hp1 (by rw [← ht2id, this])
    cases hc : s.liveFileTags.contains (fid, t.id) with
    | true =>
      have hcmem : (fid, t.id) ∈ s.liveFileTags := by
        rw [← List.elem_iff]
        exact hc
      refine ⟨t, s, by rw [hrec, hgo, hc]; rfl, htname, hg, htmem, hcmem, rfl, rfl,
        by rw [hLT]; exact h11, by rw [hLT]; exact h6, by rw [hLFT]; exact h9, ?_⟩
      intro p hp hp1 t2 hfind ht2n
      exact huniq0 p (hLFT ▸ hp) hp1 t2 hfind ht2n
    | false =>
      have hcnot : (fid, t.id) ∉ s.liveFileTags := by
        intro hmem
        have h2 : s.liveFileTags.contains (fid, t.id) = true := List.elem_iff.mpr hmem
        rw [hc] at h2
        cases h2
      have hs1lt : Sess.liveTags { s with pendFileTags := s.pendFileTags ++ [(fid, t.id)] } =
          s.liveTags := rfl
      have hs1lft : Sess.liveFileTags { s with pendFileTags := s.pendFileTags ++ [(fid, t.id)] } =
          s.db.fileTags ++ [(fid, t.id)] := by
        unfold Sess.liveFileTags
        rw [hpft, hpf]
        simp
      refine ⟨t, { s with pendFileTags := s.pendFileTags ++ [(fid, t.id)] },
        by rw [hrec, hgo, hc]; rfl, htname, hg, htmem, ?_, rfl, rfl,
        by rw [hs1lt, hLT]; exact h11, by rw [hs1lt, hLT]; exact h6, ?_, ?_⟩
      · rw [hs1lft]
        simp
      · rw [hs1lft]
        refine nodupBy_append_one id s.db.fileTags (fid, t.id) h9 (fun y hy hk => ?_)
        exact hcnot (by rw [hLFT]; exact (show y = (fid, t.id) from hk) ▸ hy)
      · intro p hp hp1 t2 hfind ht2n
        rw [hs1lft] at hp
        rw [hs1lt] at hfind
        rcases List.mem_append.mp hp with hp | hp
        · exact huniq0 p hp hp1 t2 hfind ht2n
        · simpa using hp
  | none =>
    have hat : add_tag n false s =
        (.ok (TagRow.mk s.nextTagId (normalize_tag_name n)),
          { s with
            pendTags := s.pendTags ++ [TagRow.mk s.nextTagId (normalize_tag_name n)],
            nextTagId := s.nextTagId + 1 }) := by
      unfold add_tag create_tag
      rw [hg]
      rfl
    have hfresh : ∀ p ∈ s.db.fileTags, p.2 ≠ s.nextTagId := by
      intro p hp hc
      obtain ⟨_, t3, ht3mem, ht3id⟩ := h16 p hp
      have := h14 t3 ht3mem
      omega
    have hcnot : ((fid, s.nextTagId) : Nat × Nat) ∉ s.db.fileTags := by
      intro hmem
      exact hfresh _ hmem rfl
    have hs1lft0 : Sess.liveFileTags
        { s with
          pendTags := s.pendTags ++ [TagRow.mk s.nextTagId (normalize_tag_name n)],
          nextTagId := s.nextTagId + 1 } = s.db.fileTags := by
      unfold Sess.liveFileTags
      rw [hpft, hpf]
      simp
    have hccontains : List.contains (Sess.liveFileTags
        { s with
          pendTags := s.pendTags ++ [TagRow.mk s.nextTagId (normalize_tag_name n)],
          nextTagId := s.nextTagId + 1 })
        (fid, TagRow.id (TagRow.mk s.nextTagId (normalize_tag_name n))) = false := by
      rw [hs1lft0]
      show s.db.fileTags.contains (fid, s.nextTagId) = false
      cases hc : s.db.fileTags.contains (fid, s.nextTagId) with
      | false => rfl
      | true =>
        exfalso
        apply hcnot
        rw [← List.elem_iff]
        exact hc
    have hgo : add_tags2file_go fid f [n] s =
        (.ok f,
          { s with
            pendTags := s.pendTags ++ [TagRow.mk s.nextTagId (normalize_tag_name n)],
            nextTagId := s.nextTagId + 1,
            pendFileTags := s.pendFileTags ++ [(fid, s.nextTagId)] }) := by
      simp only [add_tags2file_go, hat, hccontains]
      rfl
    have hs1lt : Sess.liveTags
        { s with
          pendTags := s.pendTags ++ [TagRow.mk s.nextTagId (normalize_tag_name n)],
          nextTagId := s.nextTagId + 1,
          pendFileTags := s.pendFileTags ++ [(fid, s.nextTagId)] } =
        s.db.tags ++ [TagRow.mk s.nextTagId (normalize_tag_name n)] := by
      unfold Sess.liveTags
      rw [hpt]
      simp
    have hs1lft : Sess.liveFileTags
        { s with
          pendTags := s.pendTags ++ [TagRow.mk s.nextTagId (normalize_tag_name n)],
          nextTagId := s.nextTagId + 1,
          pendFileTags := s.pendFileTags ++ [(fid, s.nextTagId)] } =
        s.db.fileTags ++ [(fid, s.nextTagId)] := by
      unfold Sess.liveFileTags
      rw [hpft, hpf]
      simp
    have hnames : ∀ z ∈ s.db.tags, z.name ≠ normalize_tag_name n := by
      intro z hz
      exact get_tag_none_spec n s hg z (by rw [hLT]; exact hz)
    have hfindnew : (s.db.tags ++ [TagRow.mk s.nextTagId (normalize_tag_name n)]).find?
        (fun z => z.name == normalize_tag_name n) =
        some (TagRow.mk s.nextTagId (normalize_tag_name n)) := by
      rw [List.find?_append]
      rw [show s.db.tags.find? (fun z => z.name == normalize_tag_name n) = none from
        List.find?_eq_none.mpr (fun z hz => by simpa using hnames z hz)]
      simp
    refine ⟨TagRow.mk s.nextTagId (normalize_tag_name n),
      { s with
        pendTags := s.pendTags ++ [TagRow.mk s.nextTagId (normalize_tag_name n)],
        nextTagId := s.nextTagId + 1,
        pendFileTags := s.pendFileTags ++ [(fid, s.nextTagId)] },
      by rw [hrec, hgo], rfl, ?_, ?_, ?_, rfl, rfl, ?_, ?_, ?_, ?_⟩
    · unfold get_tag
      rw [hs1lt]
      exact hfindnew
    · rw [hs1lt]
      simp
    · rw [hs1lft]
      simp
    · rw [hs1lt]
      refine nodupBy_append_one TagRow.id s.db.tags _ h11 (fun y hy hk => ?_)
      have := h14 y hy
      simp only at hk
      omega
    · rw [hs1lt]
      refine nodupBy_append_one TagRow.name s.db.tags _ h6 (fun y hy hk => ?_)
      exact hnames y hy (by simpa using hk)
    · rw [hs1lft]
      exact nodupBy_append_one id s.db.fileTags _ h9 (fun y hy hk => by
        exact hcnot ((show y = (fid, s.nextTagId) from hk) ▸ hy))
    · intro p hp hp1 t2 hfind ht2n
      rw [hs1lft] at hp
      rw [hs1lt] at hfind
      rcases List.mem_append.mp hp with hp | hp
      · exfalso
        have ht2id : t2.id = p.2 := by simpa using List.find?_some hfind
        rcases List.mem_append.mp (List.mem_of_find?_eq_some hfind) with h2 | h2
        · exact hnames t2 h2 ht2n
        · have : t2 = TagRow.mk s.nextTagId (normalize_tag_name n) := by simpa using h2
          apply hfresh p hp
          rw [← ht2id, this]
      · simpa using hp

/-- C7: adding the same tag name to a file twice — in any case or
surrounding-whitespace variant — yields exactly one association row between
the file and the single normalized tag, and the second call is a no-op
(state unchanged). -/
theorem tagging_idempotent (s : Sess) (file_id : Nat) (f : FileRow) (n1 n2 : String)
    (hwf : wf s = true) (hfid : file_id ≠ 0)
    (hf : s.liveFiles.find? (fun fr => fr.id == file_id) = some f)
    (hvar : normalize_tag_name n1 = normalize_tag_name n2) :
    ∃ s1, add_tags2file file_id [n1] s = (.ok f, s1) ∧
      add_tags2file file_id [n2] s1 = (.ok f, s1) ∧
      assocCount s1 file_id (normalize_tag_name n1) = 1 := by
  obtain ⟨t, s1, hrun, htname, hget, htmem, hamem, hlf, hdb, hndid, hndname, hndassoc, huniq⟩ :=
    add_tags2file_single s file_id f n1 hwf hfid hf
  refine ⟨s1, hrun, ?_, ?_⟩
  · have hrec2 : add_tags2file file_id [n2] s1 = add_tags2file_go file_id f [n2] s1 := by
      unfold add_tags2file get_file_record
      rw [if_neg hfid, hlf, hf]
    have hget2 : get_tag n2 s1 = some t := by
      rw [← get_tag_congr n1 n2 s1 hvar]
      exact hget
    have hat2 : add_tag n2 false s1 = (.ok t, s1) := by
      unfold add_tag
      rw [hget2]
    have hcont : s1.liveFileTags.contains (file_id, t.id) = true := List.elem_iff.mpr hamem
    rw [hrec2]
    simp only [add_tags2file_go, hat2]
    rw [hcont, if_pos rfl]
  · unfold assocCount tagsOfFile
    rw [filterMap_opt_filter_len]
    refine filter_length_one _ _ (file_id, t.id) (nodupBy_filter id _ _ hndassoc)
      (List.mem_filter.mpr ⟨hamem, by simp⟩) ?_ ?_
    · have hfind : s1.liveTags.find? (fun z => z.id == t.id) = some t :=
        find?_key_of_nodup TagRow.id s1.liveTags t hndid htmem
      show (match s1.liveTags.find? (fun z => z.id == t.id) with
        | some t2 => t2.name == normalize_tag_name n1
        | none => false) = true
      rw [hfind]
      simp [htname]
    · intro p hp hqp
      obtain ⟨hpmem, hp1⟩ := List.mem_filter.mp hp
      have hp1e : p.1 = file_id := by simpa using hp1
      simp only at hqp
      cases hfind : s1.liveTags.find? (fun z => z.id == p.2) with
      | none =>
        rw [hfind] at hqp
        cases hqp
      | some t2 =>
        rw [hfind] at hqp
        have ht2n : t2.name = normalize_tag_name n1 := by simpa using hqp
        exact huniq p hpmem hp1e t2 hfind ht2n

/-- C7 witness: adding the variants `New` and ` NEW ` of a fresh tag to
file 1 yields exactly one association for the normalized tag `new`. -/
theorem tagging_idempotent_witness :
    ∃ s1, add_tags2file 1 ["New"] probeFetchSess =
        (.ok (FileRow.mk 1 1 "b" "p" .raw "f1.txt" "h1" "text/plain" 1
          "s3://b/p/dom/ds/raw/text/plain/h1.txt"), s1) ∧
      add_tags2file 1 [" NEW "] s1 =
        (.ok (FileRow.mk 1 1 "b" "p" .raw "f1.txt" "h1" "text/plain" 1
          "s3://b/p/dom/ds/raw/text/plain/h1.txt"), s1) ∧
      assocCount s1 1 (normalize_tag_name "New") = 1 :=
  tagging_idempotent probeFetchSess 1
    (FileRow.mk 1 1 "b" "p" .raw "f1.txt" "h1" "text/plain" 1
      "s3://b/p/dom/ds/raw/text/plain/h1.txt") "New" " NEW "
    (by decide) (by decide) (by decide) (by decide)

/-! ### The dedup invariant -/

/-- C2 (corrected): registering a file succeeds on a fresh tuple and URI;
a second registration attempt carrying the identical
`(dataset, bucket, prefix, stage, content hash)` tuple whose derived URI
also coincides (same mime type and filename extension, as holds for
identical content) fails with `FileExistsError`, and the failed attempt
leaves the database — in particular the first record — unchanged. -/
theorem file_dedup (s : Sess) (cfg : LoadCfg) (ds : DatasetRow) (it1 it2 : SourceItem)
    (md1 md2 : FileMetadata)
    (hwf : wf s = true)
    (hb : cfg.s3bucket ≠ "") (hdom : ds.domain ≠ "") (hnm : ds.name ≠ "")
    (h1 : it1.fetchInspect = .ok md1) (h2 : it2.fetchInspect = .ok md2)
    (htags : cfg.tags = none)
    (hsha : md2.sha256 = md1.sha256) (hmime : md2.mime_type = md1.mime_type)
    (hext : extOf md2.filename = extOf md1.filename)
    (hfreshTup : ∀ f ∈ s.db.files, fileKey f ≠
      (ds.id, cfg.s3bucket, LoadCfg.s3prefix cfg, cfg.stage, md1.sha256))
    (hfreshUri : ∀ f ∈ s.db.files, FileRow.s3uri f ≠
      resolve_data_s3uri cfg.s3bucket (LoadCfg.s3prefix cfg) ds.domain ds.name
        (DataStage.value cfg.stage) md1.mime_type md1.sha256 (extOf md1.filename)) :
    ∃ r1 s1, load_datafile cfg ds it1 s = (.ok r1, s1) ∧
      s1.db.files = s.db.files ++
        [FileRow.mk s.nextFileId ds.id cfg.s3bucket (LoadCfg.s3prefix cfg) cfg.stage
          md1.filename md1.sha256 md1.mime_type md1.size_bytes
          (resolve_data_s3uri cfg.s3bucket (LoadCfg.s3prefix cfg) ds.domain ds.name
            (DataStage.value cfg.stage) md1.mime_type md1.sha256 (extOf md1.filename))] ∧
      (load_datafile cfg ds it2 s1).1 = .error .fileExists ∧
      (load_datafile cfg ds it2 s1).2.db = s1.db := by
  obtain ⟨hpd, hpt, hpf, hpft, h5, h6, h7, h8, h9, _⟩ := wf_spec s hwf
  have hafr1 : add_file_record ds cfg.s3bucket (LoadCfg.s3prefix cfg) md1.filename md1.sha256
      md1.mime_type md1.size_bytes cfg.stage cfg.tags s =
      (.ok (FileRow.mk s.nextFileId ds.id cfg.s3bucket (LoadCfg.s3prefix cfg) cfg.stage
        md1.filename md1.sha256 md1.mime_type md1.size_bytes ""),
       { s with
         pendFiles := s.pendFiles ++ [PendFile.mk
           (FileRow.mk s.nextFileId ds.id cfg.s3bucket (LoadCfg.s3prefix cfg) cfg.stage
             md1.filename md1.sha256 md1.mime_type md1.size_bytes "") ds []],
         nextFileId := s.nextFileId + 1 }) := by
    unfold add_file_record
    rw [htags]
    rfl
  have hhook1 : validate_and_compute_s3uri (PendFile.mk
      (FileRow.mk s.nextFileId ds.id cfg.s3bucket (LoadCfg.s3prefix cfg) cfg.stage
        md1.filename md1.sha256 md1.mime_type md1.size_bytes "") ds []) =
      .ok (FileRow.mk s.nextFileId ds.id cfg.s3bucket (LoadCfg.s3prefix cfg) cfg.stage
        md1.filename md1.sha256 md1.mime_type md1.size_bytes
        (resolve_data_s3uri cfg.s3bucket (LoadCfg.s3prefix cfg) ds.domain ds.name
          (DataStage.value cfg.stage) md1.mime_type md1.sha256 (extOf md1.filename))) := by
    unfold validate_and_compute_s3uri
    rw [if_neg hb, if_neg hdom, if_neg hnm]
  have hmh1 : mapHook [PendFile.mk
      (FileRow.mk s.nextFileId ds.id cfg.s3bucket (LoadCfg.s3prefix cfg) cfg.stage
        md1.filename md1.sha256 md1.mime_type md1.size_bytes "") ds []] =
      .ok [FileRow.mk s.nextFileId ds.id cfg.s3bucket (LoadCfg.s3prefix cfg) cfg.stage
        md1.filename md1.sha256 md1.mime_type md1.size_bytes
        (resolve_data_s3uri cfg.s3bucket (LoadCfg.s3prefix cfg) ds.domain ds.name
          (DataStage.value cfg.stage) md1.mime_type md1.sha256 (extOf md1.filename))] := by
    unfold mapHook
    rw [hhook1]
    rfl
  have htup1 : nodupBy fileKey (s.db.files ++
      [FileRow.mk s.nextFileId ds.id cfg.s3bucket (LoadCfg.s3prefix cfg) cfg.stage
        md1.filename md1.sha256 md1.mime_type md1.size_bytes
        (resolve_data_s3uri cfg.s3bucket (LoadCfg.s3prefix cfg) ds.domain ds.name
          (DataStage.value cfg.stage) md1.mime_type md1.sha256 (extOf md1.filename))]) = true :=
    nodupBy_append_one _ _ _ h7 (fun y hy => hfreshTup y hy)
  have huri1 : nodupBy FileRow.s3uri (s.db.files ++
      [FileRow.mk s.nextFileId ds.id cfg.s3bucket (LoadCfg.s3prefix cfg) cfg.stage
        md1.filename md1.sha256 md1.mime_type md1.size_bytes
        (resolve_data_s3uri cfg.s3bucket (LoadCfg.s3prefix cfg) ds.domain ds.name
          (DataStage.value cfg.stage) md1.mime_type md1.sha256 (extOf md1.filename))]) = true :=
    nodupBy_append_one _ _ _ h8 (fun y hy => hfreshUri y hy)
  have hcommit1 : commitS { s with
      pendFiles := s.pendFiles ++ [PendFile.mk
        (FileRow.mk s.nextFileId ds.id cfg.s3bucket (LoadCfg.s3prefix cfg) cfg.stage
          md1.filename md1.sha256 md1.mime_type md1.size_bytes "") ds []],
      nextFileId := s.nextFileId + 1 } =
      (.ok (), { s with
        db := Reg.mk s.db.datasets s.db.tags (s.db.files ++
          [FileRow.mk s.nextFileId ds.id cfg.s3bucket (LoadCfg.s3prefix cfg) cfg.stage
            md1.filename md1.sha256 md1.mime_type md1.size_bytes
            (resolve_data_s3uri cfg.s3bucket (LoadCfg.s3prefix cfg) ds.domain ds.name
              (DataStage.value cfg.stage) md1.mime_type md1.sha256 (extOf md1.filename))])
          s.db.fileTags,
        pendDatasets := [], pendTags := [], pendFiles := [], pendFileTags := [],
        nextFileId := s.nextFileId + 1 }) := by
    unfold commitS Sess.flushed
    simp [hpd, hpt, hpf, hpft, hmh1, h5, h6, h9, htup1, huri1]
  refine ⟨FileRow.mk s.nextFileId ds.id cfg.s3bucket (LoadCfg.s3prefix cfg) cfg.stage
      md1.filename md1.sha256 md1.mime_type md1.size_bytes "",
    { s with
      db := Reg.mk s.db.datasets s.db.tags (s.db.files ++
        [FileRow.mk s.nextFileId ds.id cfg.s3bucket (LoadCfg.s3prefix cfg) cfg.stage
          md1.filename md1.sha256 md1.mime_type md1.size_bytes
          (resolve_data_s3uri cfg.s3bucket (LoadCfg.s3prefix cfg) ds.domain ds.name
            (DataStage.value cfg.stage) md1.mime_type md1.sha256 (extOf md1.filename))])
        s.db.fileTags,
      pendDatasets := [], pendTags := [], pendFiles := [], pendFileTags := [],
      nextFileId := s.nextFileId + 1 }, ?_, rfl, ?_, ?_⟩
  · simp only [load_datafile, h1, transaction, hafr1, hcommit1]
  all_goals {
    have hafr2 : add_file_record ds cfg.s3bucket (LoadCfg.s3prefix cfg) md2.filename md2.sha256
        md2.mime_type md2.size_bytes cfg.stage cfg.tags { s with
          db := Reg.mk s.db.datasets s.db.tags (s.db.files ++
            [FileRow.mk s.nextFileId ds.id cfg.s3bucket (LoadCfg.s3prefix cfg) cfg.stage
              md1.filename md1.sha256 md1.mime_type md1.size_bytes
              (resolve_data_s3uri cfg.s3bucket (LoadCfg.s3prefix cfg) ds.domain ds.name
                (DataStage.value cfg.stage) md1.mime_type md1.sha256 (extOf md1.filename))])
            s.db.fileTags,
          pendDatasets := [], pendTags := [], pendFiles := [], pendFileTags := [],
          nextFileId := s.nextFileId + 1 } =
        (.ok (FileRow.mk (s.nextFileId + 1) ds.id cfg.s3bucket (LoadCfg.s3prefix cfg) cfg.stage
          md2.filename md2.sha256 md2.mime_type md2.size_bytes ""),
         { s with
           db := Reg.mk s.db.datasets s.db.tags (s.db.files ++
             [FileRow.mk s.nextFileId ds.id cfg.s3bucket (LoadCfg.s3prefix cfg) cfg.stage
               md1.filename md1.sha256 md1.mime_type md1.size_bytes
               (resolve_data_s3uri cfg.s3bucket (LoadCfg.s3prefix cfg) ds.domain ds.name
                 (DataStage.value cfg.stage) md1.mime_type md1.sha256 (extOf md1.filename))])
             s.db.fileTags,
           pendDatasets := [], pendTags := [],
           pendFiles := [PendFile.mk
             (FileRow.mk (s.nextFileId + 1) ds.id cfg.s3bucket (LoadCfg.s3prefix cfg) cfg.stage
               md2.filename md2.sha256 md2.mime_type md2.size_bytes "") ds []],
           pendFileTags := [],
           nextFileId := s.nextFileId + 1 + 1 }) := by
      unfold add_file_record
      rw [htags]
      rfl
    have hhook2 : validate_and_compute_s3uri (PendFile.mk
        (FileRow.mk (s.nextFileId + 1) ds.id cfg.s3bucket (LoadCfg.s3prefix cfg) cfg.stage
          md2.filename md2.sha256 md2.mime_type md2.size_bytes "") ds []) =
        .ok (FileRow.mk (s.nextFileId + 1) ds.id cfg.s3bucket (LoadCfg.s3prefix cfg) cfg.stage
          md2.filename md2.sha256 md2.mime_type md2.size_bytes
          (resolve_data_s3uri cfg.s3bucket (LoadCfg.s3prefix cfg) ds.domain ds.name
            (DataStage.value cfg.stage) md1.mime_type md1.sha256 (extOf md1.filename))) := by
      unfold validate_and_compute_s3uri
      rw [if_neg hb, if_neg hdom, if_neg hnm]
      rw [hsha, hmime, hext]
    have hmh2 : mapHook [PendFile.mk
        (FileRow.mk (s.nextFileId + 1) ds.id cfg.s3bucket (LoadCfg.s3prefix cfg) cfg.stage
          md2.filename md2.sha256 md2.mime_type md2.size_bytes "") ds []] =
        .ok [FileRow.mk (s.nextFileId + 1) ds.id cfg.s3bucket (LoadCfg.s3prefix cfg) cfg.stage
          md2.filename md2.sha256 md2.mime_type md2.size_bytes
          (resolve_data_s3uri cfg.s3bucket (LoadCfg.s3prefix cfg) ds.domain ds.name
            (DataStage.value cfg.stage) md1.mime_type md1.sha256 (extOf md1.filename))] := by
      unfold mapHook
      rw [hhook2]
      rfl
    have huri2 : nodupBy FileRow.s3uri ((s.db.files ++
        [FileRow.mk s.nextFileId ds.id cfg.s3bucket (LoadCfg.s3prefix cfg) cfg.stage
          md1.filename md1.sha256 md1.mime_type md1.size_bytes
          (resolve_data_s3uri cfg.s3bucket (LoadCfg.s3prefix cfg) ds.domain ds.name
            (DataStage.value cfg.stage) md1.mime_type md1.sha256 (extOf md1.filename))]) ++
        [FileRow.mk (s.nextFileId + 1) ds.id cfg.s3bucket (LoadCfg.s3prefix cfg) cfg.stage
          md2.filename md2.sha256 md2.mime_type md2.size_bytes
          (resolve_data_s3uri cfg.s3bucket (LoadCfg.s3prefix cfg) ds.domain ds.name
            (DataStage.value cfg.stage) md1.mime_type md1.sha256 (extOf md1.filename))]) =
        false := by
      refine nodupBy_append_one_false FileRow.s3uri _ _
        (FileRow.mk s.nextFileId ds.id cfg.s3bucket (LoadCfg.s3prefix cfg) cfg.stage
          md1.filename md1.sha256 md1.mime_type md1.size_bytes
          (resolve_data_s3uri cfg.s3bucket (LoadCfg.s3prefix cfg) ds.domain ds.name
            (DataStage.value cfg.stage) md1.mime_type md1.sha256 (extOf md1.filename))) ?_ rfl
      simp
    have hcommit2 : commitS { s with
        db := Reg.mk s.db.datasets s.db.tags (s.db.files ++
          [FileRow.mk s.nextFileId ds.id cfg.s3bucket (LoadCfg.s3prefix cfg) cfg.stage
            md1.filename md1.sha256 md1.mime_type md1.size_bytes
            (resolve_data_s3uri cfg.s3bucket (LoadCfg.s3prefix cfg) ds.domain ds.name
              (DataStage.value cfg.stage) md1.mime_type md1.sha256 (extOf md1.filename))])
          s.db.fileTags,
        pendDatasets := [], pendTags := [],
        pendFiles := [PendFile.mk
          (FileRow.mk (s.nextFileId + 1) ds.id cfg.s3bucket (LoadCfg.s3prefix cfg) cfg.stage
            md2.filename md2.sha256 md2.mime_type md2.size_bytes "") ds []],
        pendFileTags := [],
        nextFileId := s.nextFileId + 1 + 1 } =
        (.error (.integrity
          (!nodupBy (fun d => (DatasetRow.name d, DatasetRow.domain d)) s.db.datasets)
          (!nodupBy TagRow.name s.db.tags)
          (!nodupBy fileKey ((s.db.files ++
            [FileRow.mk s.nextFileId ds.id cfg.s3bucket (LoadCfg.s3prefix cfg) cfg.stage
              md1.filename md1.sha256 md1.mime_type md1.size_bytes
              (resolve_data_s3uri cfg.s3bucket (LoadCfg.s3prefix cfg) ds.domain ds.name
                (DataStage.value cfg.stage) md1.mime_type md1.sha256 (extOf md1.filename))]) ++
            [FileRow.mk (s.nextFileId + 1) ds.id cfg.s3bucket (LoadCfg.s3prefix cfg) cfg.stage
              md2.filename md2.sha256 md2.mime_type md2.size_bytes
              (resolve_data_s3uri cfg.s3bucket (LoadCfg.s3prefix cfg) ds.domain ds.name
                (DataStage.value cfg.stage) md1.mime_type md1.sha256 (extOf md1.filename))]))
          true
          (!nodupBy id s.db.fileTags)),
        { s with
          db := Reg.mk s.db.datasets s.db.tags (s.db.files ++
            [FileRow.mk s.nextFileId ds.id cfg.s3bucket (LoadCfg.s3prefix cfg) cfg.stage
              md1.filename md1.sha256 md1.mime_type md1.size_bytes
              (resolve_data_s3uri cfg.s3bucket (LoadCfg.s3prefix cfg) ds.domain ds.name
                (DataStage.value cfg.stage) md1.mime_type md1.sha256 (extOf md1.filename))])
            s.db.fileTags,
          pendDatasets := [], pendTags := [],
          pendFiles := [PendFile.mk
            (FileRow.mk (s.nextFileId + 1) ds.id cfg.s3bucket (LoadCfg.s3prefix cfg) cfg.stage
              md2.filename md2.sha256 md2.mime_type md2.size_bytes "") ds []],
          pendFileTags := [],
          nextFileId := s.nextFileId + 1 + 1 }) := by
      have huri2n : nodupBy FileRow.s3uri (s.db.files ++
          [FileRow.mk s.nextFileId ds.id cfg.s3bucket (LoadCfg.s3prefix cfg) cfg.stage
            md1.filename md1.sha256 md1.mime_type md1.size_bytes
            (resolve_data_s3uri cfg.s3bucket (LoadCfg.s3prefix cfg) ds.domain ds.name
              (DataStage.value cfg.stage) md1.mime_type md1.sha256 (extOf md1.filename)),
           FileRow.mk (s.nextFileId + 1) ds.id cfg.s3bucket (LoadCfg.s3prefix cfg) cfg.stage
            md2.filename md2.sha256 md2.mime_type md2.size_bytes
            (resolve_data_s3uri cfg.s3bucket (LoadCfg.s3prefix cfg) ds.domain ds.name
              (DataStage.value cfg.stage) md1.mime_type md1.sha256 (extOf md1.filename))]) =
          false := by
        rw [show s.db.files ++
          [FileRow.mk s.nextFileId ds.id cfg.s3bucket (LoadCfg.s3prefix cfg) cfg.stage
            md1.filename md1.sha256 md1.mime_type md1.size_bytes
            (resolve_data_s3uri cfg.s3bucket (LoadCfg.s3prefix cfg) ds.domain ds.name
              (DataStage.value cfg.stage) md1.mime_type md1.sha256 (extOf md1.filename)),
           FileRow.mk (s.nextFileId + 1) ds.id cfg.s3bucket (LoadCfg.s3prefix cfg) cfg.stage
            md2.filename md2.sha256 md2.mime_type md2.size_bytes
            (resolve_data_s3uri cfg.s3bucket (LoadCfg.s3prefix cfg) ds.domain ds.name
              (DataStage.value cfg.stage) md1.mime_type md1.sha256 (extOf md1.filename))] =
          (s.db.files ++
          [FileRow.mk s.nextFileId ds.id cfg.s3bucket (LoadCfg.s3prefix cfg) cfg.stage
            md1.filename md1.sha256 md1.mime_type md1.size_bytes
            (resolve_data_s3uri cfg.s3bucket (LoadCfg.s3prefix cfg) ds.domain ds.name
              (DataStage.value cfg.stage) md1.mime_type md1.sha256 (extOf md1.filename))]) ++
          [FileRow.mk (s.nextFileId + 1) ds.id cfg.s3bucket (LoadCfg.s3prefix cfg) cfg.stage
            md2.filename md2.sha256 md2.mime_type md2.size_bytes
            (resolve_data_s3uri cfg.s3bucket (LoadCfg.s3prefix cfg) ds.domain ds.name
              (DataStage.value cfg.stage) md1.mime_type md1.sha256 (extOf md1.filename))] from
          by simp]
        exact huri2
      unfold commitS Sess.flushed
      simp [hmh2, huri2, huri2n]
    simp only [load_datafile, h2, transaction, hafr2, hcommit2]
    simp [rollbackS]
  }

/-- C2 counterexample: the second attempt carries the identical
`(dataset, bucket, prefix, stage, content hash)` tuple but a different
filename extension; the derived URI differs, so only the `unique_data_file`
constraint is violated, the error message does not name `files.s3uri`, and
the failure surfaces as the underlying `IntegrityError` — not as
`FileExistsError` as the claim states. -/
theorem file_dedup_counterexample :
    (load_datafile probeCfg probeDs { src := "x", fetchInspect := .ok mdA } probeSessWithDs).1.isOk
      = true ∧
    mdDiffExt.sha256 = mdA.sha256 ∧
    (load_datafile probeCfg probeDs { src := "z", fetchInspect := .ok mdDiffExt } probeS1).1 =
      .error (.integrity false false true false false) ∧
    (load_datafile probeCfg probeDs { src := "z", fetchInspect := .ok mdDiffExt } probeS1).1 ≠
      .error .fileExists := by
  decide

/-- C2 witness. -/
theorem file_dedup_witness :
    ∃ r1 s1, load_datafile probeCfg probeDs { src := "x", fetchInspect := .ok mdA }
        probeSessWithDs = (.ok r1, s1) ∧
      s1.db.files = probeSessWithDs.db.files ++
        [FileRow.mk 1 1 "b" "p" .raw "a.txt" "h" "text/plain" 1
          (resolve_data_s3uri "b" "p" "dom" "ds" (DataStage.value .raw) "text/plain" "h"
            (extOf "a.txt"))] ∧
      (load_datafile probeCfg probeDs { src := "y", fetchInspect := .ok mdSameExt } s1).1 =
        .error .fileExists ∧
      (load_datafile probeCfg probeDs { src := "y", fetchInspect := .ok mdSameExt } s1).2.db =
        s1.db :=
  file_dedup probeSessWithDs probeCfg probeDs { src := "x", fetchInspect := .ok mdA }
    { src := "y", fetchInspect := .ok mdSameExt } mdA mdSameExt (by decide) (by decide)
    (by decide) (by decide) rfl rfl rfl (by decide) (by decide) (by decide) (by decide)
    (by decide)

/-! ### Batch ingestion -/

/-- Five candidate sources that all fail during fetch or inspection. -/
def allFailItems : List SourceItem :=
  [ { src := "/data/f1.txt", fetchInspect := .error "unreadable" },
    { src := "/data/f2.txt", fetchInspect := .error "unreadable" },
    { src := "/data/f3.txt", fetchInspect := .error "not found" },
    { src := "/data/f4.txt", fetchInspect := .error "not found" },
    { src := "/data/f5.txt", fetchInspect := .error "unreadable" } ]

/-- C5 counterexample: a batch in which every item fails leaves the
successful set empty, and `load` then raises the generic `ValueError` of
`DataLoader.load` — the code defines no `BatchFailedError`, so the batch
does not fail with the error class the claim names.  The successful run
also returns plain `None` (here `Unit`), not the set of registered ids. -/
theorem batch_partial_failure_counterexample :
    (load probeCfg allFailItems emptySess).1 =
      .error (.valueError "Failed to load datafiles (/data).") ∧
    (load probeCfg allFailItems emptySess).1 ≠ .error .batchFailed ∧
    (load probeCfg probeItems emptySess).1 = .ok () := by
  decide

/-- C5 (corrected): batch behavior of `DataLoader.load`.  (1) An empty
gather fails immediately.  (2) A failing item never aborts the batch: the
loop simply continues with the remaining items from the failed item's
resulting session state.  (3) With a resolved dataset, the batch raises the
generic `ValueError` exactly when the successful set is empty, and
otherwise completes returning `None` (no identifiers are returned).
(4) In the concrete five-candidate batch with two fetch or inspection
failures, exactly the three successful items' file rows are committed. -/
theorem batch_partial_failure_amended :
    (∀ (cfg : LoadCfg) (s : Sess), load cfg [] s =
      (.error (.valueError ("Failed to gather data files from " ++ cfg.data_src)), s)) ∧
    (∀ (cfg : LoadCfg) (ds : DatasetRow) (bad : SourceItem) (its : List SourceItem) (s s1 : Sess)
      (e : Err), load_datafile cfg ds bad s = (.error e, s1) →
      loadLoop cfg ds (bad :: its) s = loadLoop cfg ds its s1) ∧
    (∀ (cfg : LoadCfg) (items : List SourceItem) (s s1 : Sess) (ds : DatasetRow),
      items ≠ [] →
      add_dataset cfg.domain cfg.dataset_name cfg.description cfg.exists_ok s = (.ok ds, s1) →
      ((loadLoop cfg ds items s1).1 = [] →
        load cfg items s =
          (.error (.valueError ("Failed to load datafiles (" ++ cfg.data_src ++ ").")),
            (loadLoop cfg ds items s1).2)) ∧
      ((loadLoop cfg ds items s1).1 ≠ [] →
        load cfg items s = (.ok (), (loadLoop cfg ds items s1).2))) ∧
    ((load probeCfg probeItems emptySess).1 = .ok () ∧
      ((load probeCfg probeItems emptySess).2.db.files.map FileRow.filename) =
        ["f1.txt", "f3.txt", "f5.txt"]) := by
  refine ⟨?_, ?_, ?_, by decide, by decide⟩
  · intro cfg s
    rfl
  · intro cfg ds bad its s s1 e h
    simp only [loadLoop]
    rw [h]
  · intro cfg items s s1 ds hne hds
    have hload : load cfg items s =
        (let ps := loadLoop cfg ds items s1
         if ps.1.isEmpty then
           (.error (.valueError ("Failed to load datafiles (" ++ cfg.data_src ++ ").")), ps.2)
         else (.ok (), ps.2)) := by
      unfold load
      rw [if_neg (by simpa using hne), hds]
    constructor
    · intro hempty
      rw [hload]
      simp only [hempty]
      rfl
    · intro hnonempty
      rw [hload]
      simp only []
      rw [if_neg (by simpa using hnonempty)]

/-- C5 witness. -/
theorem batch_partial_failure_witness :
    (load probeCfg [] emptySess =
      (.error (.valueError ("Failed to gather data files from " ++ probeCfg.data_src)),
        emptySess)) ∧
    (loadLoop probeCfg probeDs
        ({ src := "/data/f2.txt", fetchInspect := .error "unreadable" } :: []) probeSessWithDs =
      loadLoop probeCfg probeDs [] probeSessWithDs) :=
  ⟨batch_partial_failure_amended.1 probeCfg emptySess,
   batch_partial_failure_amended.2.1 probeCfg probeDs
     { src := "/data/f2.txt", fetchInspect := .error "unreadable" } [] probeSessWithDs
     probeSessWithDs (.inspectFailed "unreadable") rfl⟩

end DJ
